import Mathlib

/-!
# Verification of the ZFS fault-injection core (`module/zfs/zio_inject.c`)

A shallow embedding of the fault-injection subsystem: the injection record
model, the frequency gate, the matching engine, the delay (lane) engine,
pool-delay one-shot handlers, registration validation, range translation and
the handler registry lifecycle.  Machine integers are modelled as `Nat`/`Int`
(counter and timestamp arithmetic in the source stays far below the 64-bit
range for every property studied here; where a specific width matters, e.g.
the `-1ULL` sentinel of the range translator, the exact value `2^64 - 1` is
used explicitly).  Pool names only ever flow through equality comparisons
(`strcmp`), so they are modelled as atoms (`Nat` identifiers).  Randomness
(`random_in_range(n)`) is modelled by an externally supplied draw, reduced
modulo `n`.  The global handler list is modelled as a `List`, head = list
head, `list_insert_tail` = append.
-/

namespace ZfsInject

/-! ### Constants from the surrounding headers (values from the repository's
include tree; none of the results below depend on the particular numbers) -/

def DMU_META_OBJSET : Nat := 0

def DMU_META_DNODE_OBJECT : Nat := 0

def DMU_OT_NONE : Nat := 0

def ZI_NO_DVA : Int := -1

def ZI_PERCENTAGE_MAX : Nat := 10000

def SPA_BLKPTRSHIFT : Nat := 7

def UINT16_MAX : Nat := 65535

/-- `-1ULL`, i.e. `2^64 - 1`. -/
def U64MAX : Nat := 18446744073709551615

def INT_MAX : Nat := 2147483647

def ENOENT : Nat := 2

def EIO : Nat := 5

def ENXIO : Nat := 6

def EEXIST : Nat := 17

def EINVAL : Nat := 22

def EDOM : Nat := 33

def EILSEQ : Nat := 84

def VDEV_LABEL_START_SIZE : Nat := 4194304

def VDEV_LABEL_END_SIZE : Nat := 524288

def VDEV_AUX_OPEN_FAILED : Nat := 1

def ZIO_TYPE_READ : Nat := 1

def ZIO_TYPE_FLUSH : Nat := 5

/-- Modelled from the spec: the `iotype` enum `read|write|free|claim|flush|probe|all`;
values below `ZINJECT_IOTYPE_ALL` are the concrete `zio_type` values, then
`all`, then `probe`, then the number of iotypes (the header carrying these
definitions is not part of the sources). -/
def ZINJECT_IOTYPE_ALL : Nat := 7

def ZINJECT_IOTYPE_PROBE : Nat := 8

def ZINJECT_IOTYPES : Nat := 9

/-! ### The record model -/

/-- `zinject_type_t`: the command of an injection record. -/
inductive ZinjectType where
  | uninitialized
  | dataFault
  | deviceFault
  | labelFault
  | ignoredWrites
  | panicFault
  | delayIo
  | decryptFault
  | delayImport
  | delayExport
deriving DecidableEq

/-- `zinject_record_t`.  `zi_func` is omitted (only the panic path reads it,
which is not studied here); `zi_failfast` is modelled as `Bool`. -/
structure ZinjectRecord where
  zi_objset : Nat
  zi_object : Nat
  zi_start : Nat
  zi_end : Nat
  zi_guid : Nat
  zi_level : Nat
  zi_error : Nat
  zi_type : Nat
  zi_freq : Nat
  zi_failfast : Bool
  zi_iotype : Nat
  zi_duration : Int
  zi_timer : Nat
  zi_nlanes : Nat
  zi_cmd : ZinjectType
  zi_dvas : Nat
  zi_match_count : Nat
  zi_inject_count : Nat
deriving DecidableEq

def emptyRecord : ZinjectRecord where
  zi_objset := 0
  zi_object := 0
  zi_start := 0
  zi_end := 0
  zi_guid := 0
  zi_level := 0
  zi_error := 0
  zi_type := 0
  zi_freq := 0
  zi_failfast := false
  zi_iotype := 0
  zi_duration := 0
  zi_timer := 0
  zi_nlanes := 0
  zi_cmd := ZinjectType.uninitialized
  zi_dvas := 0
  zi_match_count := 0
  zi_inject_count := 0

/-- `zbookmark_phys_t` (the fields read by the matching engine). -/
structure Zbookmark where
  zb_objset : Nat
  zb_object : Nat
  zb_level : Int
  zb_blkid : Nat
deriving DecidableEq

/-! ### Frequency gate (`freq_triggered`) -/

/-- The scale used by `freq_triggered`: legacy (unscaled) frequencies up to
100 draw from `[0, 100)`, scaled ones from `[0, ZI_PERCENTAGE_MAX)`. -/
def freq_maximum (frequency : Nat) : Nat :=
  if frequency ≤ 100 then 100 else ZI_PERCENTAGE_MAX

/-- `freq_triggered(frequency)`.  The call `random_in_range(maximum)` is
modelled by reducing the external draw modulo `maximum`. -/
def freq_triggered (frequency : Nat) (draw : Nat) : Bool :=
  if frequency = 0 then true
  else decide (draw % freq_maximum frequency < frequency)

/-! ### Matching engine (`zio_match_handler`) -/

/-- The `matched` flag computed by `zio_match_handler`: the MOS branch is
taken whenever the three-way MOS guard holds (and then decides the match by
object type alone); otherwise the exact-match conjunction applies. -/
def zio_match_handler_matched (zb : Zbookmark) (ty : Nat) (dva : Int)
    (record : ZinjectRecord) (error : Nat) : Bool :=
  if zb.zb_objset = DMU_META_OBJSET ∧ record.zi_objset = DMU_META_OBJSET ∧
      record.zi_object = DMU_META_DNODE_OBJECT then
    record.zi_type == DMU_OT_NONE || ty == record.zi_type
  else
    zb.zb_objset == record.zi_objset &&
    zb.zb_object == record.zi_object &&
    zb.zb_level == (record.zi_level : Int) &&
    decide (record.zi_start ≤ zb.zb_blkid) &&
    decide (zb.zb_blkid ≤ record.zi_end) &&
    (record.zi_dvas == 0 ||
      (dva != ZI_NO_DVA && record.zi_dvas.testBit dva.toNat)) &&
    error == record.zi_error

/-- `zio_match_handler`: returns the `injected` flag and the record with its
telemetry counters updated (`zi_match_count` on a match, `zi_inject_count`
when the frequency gate additionally fires). -/
def zio_match_handler (zb : Zbookmark) (ty : Nat) (dva : Int)
    (record : ZinjectRecord) (error : Nat) (draw : Nat) : Bool × ZinjectRecord :=
  let matched := zio_match_handler_matched zb ty dva record error
  let record1 :=
    if matched then
      { record with zi_match_count := record.zi_match_count + 1 }
    else record
  let injected := matched && freq_triggered record.zi_freq draw
  let record2 :=
    if injected then
      { record1 with zi_inject_count := record1.zi_inject_count + 1 }
    else record1
  (injected, record2)

/-- The matching condition exactly as the specification words it: either the
MOS shortcut applies (all four of its clauses), or otherwise (the MOS guard
fails) the exact-match conjunction holds. -/
def specMatches (zb : Zbookmark) (ty : Nat) (dva : Int)
    (record : ZinjectRecord) (error : Nat) : Prop :=
  (zb.zb_objset = DMU_META_OBJSET ∧ record.zi_objset = DMU_META_OBJSET ∧
    record.zi_object = DMU_META_DNODE_OBJECT ∧
    (record.zi_type = DMU_OT_NONE ∨ record.zi_type = ty)) ∨
  (¬(zb.zb_objset = DMU_META_OBJSET ∧ record.zi_objset = DMU_META_OBJSET ∧
      record.zi_object = DMU_META_DNODE_OBJECT) ∧
    zb.zb_objset = record.zi_objset ∧
    zb.zb_object = record.zi_object ∧
    zb.zb_level = (record.zi_level : Int) ∧
    record.zi_start ≤ zb.zb_blkid ∧
    zb.zb_blkid ≤ record.zi_end ∧
    (record.zi_dvas = 0 ∨
      (dva ≠ ZI_NO_DVA ∧ record.zi_dvas.testBit dva.toNat = true)) ∧
    error = record.zi_error)

instance (zb : Zbookmark) (ty : Nat) (dva : Int) (record : ZinjectRecord)
    (error : Nat) : Decidable (specMatches zb ty dva record error) := by
  unfold specMatches
  infer_instance

/-! ### Handler registry -/

/-- `inject_handler_t`.  The `spa_t` pointer is modelled by the pool's name
atom (a handler holds either a loaded-pool reference `zi_spa` or, for
pool-delay handlers, a name copy `zi_spa_name`). -/
structure InjectHandler where
  zi_id : Nat
  zi_spa : Option Nat
  zi_spa_name : Option Nat
  zi_record : ZinjectRecord
  zi_lanes : List Nat
  zi_next_lane : Nat
deriving DecidableEq

def emptyHandler : InjectHandler where
  zi_id := 0
  zi_spa := none
  zi_spa_name := none
  zi_record := emptyRecord
  zi_lanes := []
  zi_next_lane := 0

/-- The global mutable state of the subsystem: the handler list (head first;
`list_insert_tail` appends), the two counters and the id source. -/
structure InjectState where
  handlers : List InjectHandler
  zio_injection_enabled : Nat
  inject_delay_count : Nat
  inject_next_id : Nat
deriving DecidableEq

/-- State established by `zio_inject_init`. -/
def initialInjectState : InjectState where
  handlers := []
  zio_injection_enabled := 0
  inject_delay_count := 0
  inject_next_id := 1

def bumpMatch (h : InjectHandler) : InjectHandler :=
  { h with zi_record :=
      { h.zi_record with zi_match_count := h.zi_record.zi_match_count + 1 } }

def bumpInject (h : InjectHandler) : InjectHandler :=
  { h with zi_record :=
      { h.zi_record with zi_inject_count := h.zi_record.zi_inject_count + 1 } }

/-- Replace the element at an index (out-of-range indices leave the list
unchanged). -/
def modifyIdx {α : Type} (f : α → α) : Nat → List α → List α
  | _, [] => []
  | 0, a :: t => f a :: t
  | n + 1, a :: t => a :: modifyIdx f n t

/-! ### I/O-type matching (`zio_match_iotype`) -/

/-- `zio_match_iotype(zio, iotype)`: `ioType`/`probe` are the zio's
`io_type` and `ZIO_FLAG_PROBE` flag. -/
def zio_match_iotype (ioType : Nat) (probe : Bool) (iotype : Nat) : Bool :=
  if ZINJECT_IOTYPES ≤ iotype then false
  else if probe then iotype == ZINJECT_IOTYPE_PROBE
  else if iotype < ZINJECT_IOTYPE_ALL then iotype == ioType
  else if iotype = ZINJECT_IOTYPE_ALL then true
  else false

/-! ### Delay engine (`zio_handle_io_delay`) -/

/-- A handler is scanned by the delay loop iff it is a delay-io handler for
this vdev whose iotype matches the I/O. -/
def delayCandidate (guid ioType : Nat) (probe : Bool) (h : InjectHandler) : Bool :=
  h.zi_record.zi_cmd == ZinjectType.delayIo &&
  guid == h.zi_record.zi_guid &&
  zio_match_iotype ioType probe h.zi_record.zi_iotype

/-- `MAX(idle, busy)` for a handler: `idle = zi_timer + now`,
`busy = zi_timer + zi_lanes[zi_next_lane]`. -/
def laneTarget (now : Nat) (h : InjectHandler) : Nat :=
  max (h.zi_record.zi_timer + now)
    (h.zi_record.zi_timer + h.zi_lanes.getD h.zi_next_lane 0)

/-- The running-minimum step of the delay loop: keep the incumbent unless the
new target is strictly smaller (first handler wins ties). -/
def pickMin (best : Option (Nat × Nat)) (p : Nat × Nat) : Option (Nat × Nat) :=
  match best with
  | none => some p
  | some q => if p.2 < q.2 then some p else some q

/-- The scanning loop of `zio_handle_io_delay`: bump `zi_match_count` of every
candidate, consult the frequency gate (draw indexed by list position), and
track the minimum `(index, target)` pair. -/
def delay_scan (guid ioType : Nat) (probe : Bool) (now : Nat) (draw : Nat → Nat) :
    List InjectHandler → Nat → Option (Nat × Nat) →
    List InjectHandler × Option (Nat × Nat)
  | [], _, best => ([], best)
  | h :: t, i, best =>
    if delayCandidate guid ioType probe h then
      if freq_triggered h.zi_record.zi_freq (draw i) then
        let r := delay_scan guid ioType probe now draw t (i + 1)
          (pickMin best (i, laneTarget now h))
        (bumpMatch h :: r.1, r.2)
      else
        let r := delay_scan guid ioType probe now draw t (i + 1) best
        (bumpMatch h :: r.1, r.2)
    else
      let r := delay_scan guid ioType probe now draw t (i + 1) best
      (h :: r.1, r.2)

/-- The post-selection update on the minimal handler: claim the lane, advance
the round-robin cursor, bump `zi_inject_count`. -/
def applyDelay (target : Nat) (h : InjectHandler) : InjectHandler :=
  { h with
    zi_lanes := h.zi_lanes.set h.zi_next_lane target,
    zi_next_lane := (h.zi_next_lane + 1) % h.zi_record.zi_nlanes,
    zi_record :=
      { h.zi_record with zi_inject_count := h.zi_record.zi_inject_count + 1 } }

/-- `zio_handle_io_delay`: short-circuit on `inject_delay_count == 0`, scan,
then update the selected minimal handler.  Returns the wakeup target (0 means
no delay). -/
def zio_handle_io_delay (guid ioType : Nat) (probe : Bool) (now : Nat)
    (draw : Nat → Nat) (st : InjectState) : Nat × InjectState :=
  if st.inject_delay_count = 0 then (0, st)
  else
    let r := delay_scan guid ioType probe now draw st.handlers 0 none
    match r.2 with
    | none => (0, { st with handlers := r.1 })
    | some (k, tmin) =>
      (tmin, { st with handlers := modifyIdx (applyDelay tmin) k r.1 })

/-- Candidate bump as a per-element map (used to state what the scan does to
the list). -/
def bumpIfCandidate (guid ioType : Nat) (probe : Bool) (h : InjectHandler) :
    InjectHandler :=
  if delayCandidate guid ioType probe h then bumpMatch h else h

/-- Handler `i` of `hs` matches the I/O and its frequency gate fires. -/
def firesAt (guid ioType : Nat) (probe : Bool) (draw : Nat → Nat)
    (hs : List InjectHandler) (i : Nat) : Prop :=
  i < hs.length ∧
  delayCandidate guid ioType probe (hs.getD i emptyHandler) = true ∧
  freq_triggered (hs.getD i emptyHandler).zi_record.zi_freq (draw i) = true

/-- The `(index, target)` pairs of the firing handlers, in list order,
indices counted from `i`. -/
def firingList (guid ioType : Nat) (probe : Bool) (now : Nat) (draw : Nat → Nat) :
    Nat → List InjectHandler → List (Nat × Nat)
  | _, [] => []
  | i, h :: t =>
    if delayCandidate guid ioType probe h ∧
        freq_triggered h.zi_record.zi_freq (draw i) = true then
      (i, laneTarget now h) :: firingList guid ioType probe now draw (i + 1) t
    else firingList guid ioType probe now draw (i + 1) t

/-- First-tie-wins minimum (by second component) of a list of pairs. -/
def selectMin : List (Nat × Nat) → Option (Nat × Nat)
  | [] => none
  | p :: rest =>
    match selectMin rest with
    | none => some p
    | some q => if q.2 < p.2 then some q else some p

/-- Left-biased merge of two optional minima. -/
def merge2 : Option (Nat × Nat) → Option (Nat × Nat) → Option (Nat × Nat)
  | none, r => r
  | some p, none => some p
  | some p, some q => if q.2 < p.2 then some q else some p

/-- State transformer of one `zio_handle_io_delay` call. -/
def ioDelayStep (guid ioType : Nat) (probe : Bool) (now : Nat)
    (draw : Nat → Nat) (st : InjectState) : InjectState :=
  (zio_handle_io_delay guid ioType probe now draw st).2

/-- The single delay handler of the S4 scenario after `j` completed calls:
`j` lanes claimed at target `T`, cursor at `j mod K`, both counters at `j`. -/
def scenarioHandler (g K T j : Nat) : InjectHandler where
  zi_id := 1
  zi_spa := some 0
  zi_spa_name := none
  zi_record :=
    { emptyRecord with
      zi_cmd := ZinjectType.delayIo
      zi_guid := g
      zi_timer := T
      zi_nlanes := K
      zi_iotype := ZINJECT_IOTYPE_ALL
      zi_freq := 0
      zi_match_count := j
      zi_inject_count := j }
  zi_lanes := List.replicate j T ++ List.replicate (K - j) 0
  zi_next_lane := j % K

def scenarioState (g K T j : Nat) : InjectState where
  handlers := [scenarioHandler g K T j]
  zio_injection_enabled := 1
  inject_delay_count := 1
  inject_next_id := 2

/-! ### Clearing (`zio_clear_fault`) and enumeration (`zio_inject_list_next`) -/

/-- Find-and-unlink of the first handler with the given id. -/
def removeById (id : Nat) : List InjectHandler →
    Option (InjectHandler × List InjectHandler)
  | [] => none
  | h :: t =>
    if h.zi_id = id then some (h, t)
    else
      match removeById id t with
      | none => none
      | some p => some (p.1, h :: p.2)

/-- `zio_clear_fault`: unlink the handler, decrement `inject_delay_count` for
a delay-io handler, decrement `zio_injection_enabled`. -/
def zio_clear_fault (st : InjectState) (id : Nat) : Nat × InjectState :=
  match removeById id st.handlers with
  | none => (ENOENT, st)
  | some (h, rest) =>
    (0, { st with
      handlers := rest,
      zio_injection_enabled := st.zio_injection_enabled - 1,
      inject_delay_count := st.inject_delay_count -
        (if h.zi_record.zi_cmd = ZinjectType.delayIo then 1 else 0) })

/-- The pool name reported for a handler by `zio_inject_list_next`
(`spa_name(zi_spa)` when the pool reference is held, else the name copy). -/
def handlerPoolName (h : InjectHandler) : Nat :=
  match h.zi_spa with
  | some n => n
  | none => h.zi_spa_name.getD 0

/-- `zio_inject_list_next`: first handler with id strictly above the cursor. -/
def zio_inject_list_next (st : InjectState) (cursor : Nat) :
    Option (Nat × Nat × ZinjectRecord) :=
  match st.handlers.find? (fun h => decide (cursor < h.zi_id)) with
  | some h => some (h.zi_id, handlerPoolName h, h.zi_record)
  | none => none

/-! ### Pool delays (`zio_handle_pool_delay`) -/

def SEC2NSEC (s : Int) : Int := s * 1000000000

/-- The scanning loop of `zio_handle_pool_delay`.  Mirrors the source's loop
condition `handler != NULL && handler->zi_record.zi_cmd == command`: the scan
stops at the first handler whose command differs.  Returns the updated list,
the nanoseconds to sleep, and the matched handler's id (0 when none). -/
def pool_delay_scan (spaName : Nat) (elapsed : Nat) (command : ZinjectType) :
    List InjectHandler → List InjectHandler × Nat × Nat
  | [] => ([], 0, 0)
  | h :: t =>
    if h.zi_record.zi_cmd ≠ command then (h :: t, 0, 0)
    else if h.zi_spa_name = some spaName then
      let pause := SEC2NSEC h.zi_record.zi_duration
      if (elapsed : Int) < pause then
        (bumpInject (bumpMatch h) :: t, (pause - elapsed).toNat, h.zi_id)
      else (bumpMatch h :: t, 0, h.zi_id)
    else
      let r := pool_delay_scan spaName elapsed command t
      (h :: r.1, r.2.1, r.2.2)

/-- `zio_handle_pool_delay`: scan, sleep for the computed pause (returned as
first component), then self-clear the matched one-shot handler. -/
def zio_handle_pool_delay (spaName : Nat) (elapsed : Nat)
    (command : ZinjectType) (st : InjectState) : Nat × InjectState :=
  let r := pool_delay_scan spaName elapsed command st.handlers
  let st1 := { st with handlers := r.1 }
  (r.2.1, if r.2.2 ≠ 0 then (zio_clear_fault st1 r.2.2).2 else st1)

/-! ### Range translation (`zio_calculate_range`) -/

/-- The dnode geometry produced by the pool/dataset/objset/dnode lookups
(`dsl_pool_hold` … `dnode_hold` are external collaborators; a lookup failure
is threaded through `zio_inject_fault` as an `Except.error`). -/
structure DnodeInfo where
  datablkshift : Nat
  nlevels : Nat
  indblkshift : Nat
deriving DecidableEq

deriving instance DecidableEq for Except

/-- `level` iterations of `>> s`. -/
def shiftLevels : Nat → Nat → Nat → Nat
  | 0, _, x => x
  | n + 1, s, x => shiftLevels n s (x >>> s)

/-- The translation step of `zio_calculate_range` once the dnode is held. -/
def zio_calculate_range (dn : DnodeInfo) (record : ZinjectRecord) :
    Except Nat ZinjectRecord :=
  let r1 :=
    if record.zi_start ≠ 0 ∨ record.zi_end ≠ U64MAX then
      { record with
        zi_start := record.zi_start >>> dn.datablkshift,
        zi_end := record.zi_end >>> dn.datablkshift }
    else record
  if 0 < r1.zi_level then
    if dn.nlevels ≤ r1.zi_level then Except.error EDOM
    else if r1.zi_start ≠ 0 ∨ r1.zi_end ≠ 0 then
      Except.ok { r1 with
        zi_start := shiftLevels r1.zi_level (dn.indblkshift - SPA_BLKPTRSHIFT)
          r1.zi_start,
        zi_end := shiftLevels r1.zi_level (dn.indblkshift - SPA_BLKPTRSHIFT)
          r1.zi_end }
    else Except.ok r1
  else Except.ok r1

/-! ### Registration (`zio_inject_fault`) -/

structure ZinjectFlags where
  unloadSpa : Bool
  calcRange : Bool
  nullFlag : Bool
  flushArc : Bool
deriving DecidableEq

/-- `zio_pool_handler_exists`: a handler with this command already targets
this pool name (`zi_spa_name` when present, else the held pool's name). -/
def zio_pool_handler_exists (st : InjectState) (name : Nat)
    (command : ZinjectType) : Bool :=
  st.handlers.any fun h =>
    h.zi_record.zi_cmd == command &&
    ((match h.zi_spa_name with
      | some n => n
      | none => h.zi_spa.getD 0) == name)

/-- Allocate, link and account a new handler (the tail of
`zio_inject_fault`'s non-NULL path). -/
def installHandler (st : InjectState) (spa : Option Nat) (spaName : Option Nat)
    (record : ZinjectRecord) : Nat × Option Nat × InjectState :=
  let h : InjectHandler :=
    { zi_id := st.inject_next_id
      zi_spa := spa
      zi_spa_name := spaName
      zi_record := record
      zi_lanes :=
        if record.zi_cmd = ZinjectType.delayIo then
          List.replicate record.zi_nlanes 0
        else []
      zi_next_lane := 0 }
  (0, some st.inject_next_id,
    { handlers := st.handlers ++ [h]
      zio_injection_enabled := st.zio_injection_enabled + 1
      inject_delay_count := st.inject_delay_count +
        (if record.zi_cmd = ZinjectType.delayIo then 1 else 0)
      inject_next_id := st.inject_next_id + 1 })

/-- `zio_inject_fault`.  External collaborators enter as parameters:
`spaResetResult` is `spa_reset(name)` (consulted only under `unloadSpa`),
`lookupResult` the outcome of the pool/dataset/objset/dnode lookups
(consulted only under `calcRange`), `hasSpa` whether the pool is currently in
the namespace (`spa_lookup` / `spa_inject_addref` success).  Returns
`(errno, assigned id, new state)`. -/
def zio_inject_fault (spaResetResult : Nat) (lookupResult : Except Nat DnodeInfo)
    (hasSpa : Bool) (name : Nat) (flags : ZinjectFlags) (record : ZinjectRecord)
    (st : InjectState) : Nat × Option Nat × InjectState :=
  if flags.unloadSpa ∧ spaResetResult ≠ 0 then (spaResetResult, none, st)
  else if record.zi_cmd = ZinjectType.delayIo ∧
      (record.zi_timer = 0 ∨ record.zi_nlanes = 0) then (EINVAL, none, st)
  else if record.zi_cmd = ZinjectType.delayIo ∧
      UINT16_MAX ≤ record.zi_nlanes then (EINVAL, none, st)
  else
    let ranged : Except Nat ZinjectRecord :=
      if flags.calcRange then
        match lookupResult with
        | Except.error e => Except.error e
        | Except.ok dn => zio_calculate_range dn record
      else Except.ok record
    match ranged with
    | Except.error e => (e, none, st)
    | Except.ok record1 =>
      if flags.nullFlag then (0, none, st)
      else if record1.zi_cmd = ZinjectType.delayImport ∨
          record1.zi_cmd = ZinjectType.delayExport then
        if record1.zi_duration ≤ 0 then (EINVAL, none, st)
        else if zio_pool_handler_exists st name record1.zi_cmd then
          (EEXIST, none, st)
        else if record1.zi_cmd = ZinjectType.delayImport ∧ hasSpa = true then
          (EEXIST, none, st)
        else if record1.zi_cmd = ZinjectType.delayExport ∧ hasSpa = false then
          (ENOENT, none, st)
        else installHandler st none (some name) record1
      else
        if hasSpa = false then (ENOENT, none, st)
        else installHandler st (some name) none record1

/-- The registry invariants: the enable gate counts all handlers, the delay
count counts the delay-io handlers. -/
def stateInvariant (st : InjectState) : Prop :=
  st.zio_injection_enabled = st.handlers.length ∧
  st.inject_delay_count =
    (st.handlers.filter
      (fun h => h.zi_record.zi_cmd == ZinjectType.delayIo)).length

/-! ### Device injection (`zio_handle_device_injection_impl`) -/

structure VdevState where
  vdev_guid : Nat
  vdev_psize : Nat
  vs_aux : Nat
deriving DecidableEq

/-- The fields of a `zio_t` read by the device-injection path.  `abd` is the
data buffer as a list of segments of bytes. -/
structure ZioDev where
  io_type : Nat
  probe : Bool
  retryFlag : Bool
  tryhard : Bool
  io_offset : Nat
  abd : List (List Nat)
deriving DecidableEq

/-- `zio_inject_bitflip_cb`: flip one random bit of one buffer segment. -/
def zio_inject_bitflip_cb (data : List Nat) (byteDraw bitDraw : Nat) : List Nat :=
  data.set (byteDraw % data.length)
    ((data.getD (byteDraw % data.length) 0) ^^^ (1 <<< (bitDraw % 8)))

/-- `abd_iterate_func` with `zio_inject_bitflip_cb`: the callback returns 1,
so iteration stops after the first segment. -/
def abd_iterate_bitflip (segs : List (List Nat)) (byteDraw bitDraw : Nat) :
    List (List Nat) :=
  match segs with
  | [] => []
  | s :: rest => zio_inject_bitflip_cb s byteDraw bitDraw :: rest

/-- The failfast skip test: `zio == NULL || (io_flags & (IO_RETRY | TRYHARD))`. -/
def zioRetrying (zio : Option ZioDev) : Bool :=
  match zio with
  | none => true
  | some z => z.retryFlag || z.tryhard

def setRetryFlag (zio : Option ZioDev) : Option ZioDev :=
  match zio with
  | none => none
  | some z => some { z with retryFlag := true }

structure DeviceResult where
  ret : Nat
  handlers : List InjectHandler
  zio : Option ZioDev
  vd : VdevState
deriving DecidableEq

/-- The handler loop of `zio_handle_device_injection_impl` (draws indexed by
list position; `byteDraw`/`bitDraw` feed the bit-flip callback). -/
def device_loop (err1 err2 : Nat) (draw : Nat → Nat) (byteDraw bitDraw : Nat) :
    Nat → VdevState → Option ZioDev → List InjectHandler → DeviceResult
  | _, vd, zio, [] => ⟨0, [], zio, vd⟩
  | i, vd, zio, h :: t =>
    if h.zi_record.zi_cmd ≠ ZinjectType.deviceFault ∨
        vd.vdev_guid ≠ h.zi_record.zi_guid ∨
        (h.zi_record.zi_failfast = true ∧ zioRetrying zio = true) ∨
        (∃ z, zio = some z ∧
          zio_match_iotype z.io_type z.probe h.zi_record.zi_iotype = false) then
      let r := device_loop err1 err2 draw byteDraw bitDraw (i + 1) vd zio t
      ⟨r.ret, h :: r.handlers, r.zio, r.vd⟩
    else if h.zi_record.zi_error = err1 ∨ h.zi_record.zi_error = err2 then
      if freq_triggered h.zi_record.zi_freq (draw i) = false then
        let r := device_loop err1 err2 draw byteDraw bitDraw (i + 1) vd zio t
        ⟨r.ret, bumpMatch h :: r.handlers, r.zio, r.vd⟩
      else
        let h2 := bumpInject (bumpMatch h)
        let vd1 := if err1 = ENXIO then { vd with vs_aux := VDEV_AUX_OPEN_FAILED }
          else vd
        let zio1 := if h.zi_record.zi_failfast = false then setRetryFlag zio
          else zio
        if h.zi_record.zi_error = EILSEQ then
          match zio1 with
          | none => ⟨0, h2 :: t, none, vd1⟩
          | some z =>
            ⟨0, h2 :: t, some { z with abd := abd_iterate_bitflip z.abd byteDraw bitDraw },
              vd1⟩
        else ⟨h.zi_record.zi_error, h2 :: t, zio1, vd1⟩
    else if h.zi_record.zi_error = ENXIO then
      ⟨ EIO, bumpInject (bumpMatch h) :: t, zio, vd⟩
    else
      let r := device_loop err1 err2 draw byteDraw bitDraw (i + 1) vd zio t
      ⟨r.ret, h :: r.handlers, r.zio, r.vd⟩

/-- `zio_handle_device_injection_impl`: skip I/Os outside the label regions
(unless the zio is absent, a flush, or a probe), then run the handler loop. -/
def zio_handle_device_injection_impl (vd : VdevState) (zio : Option ZioDev)
    (err1 err2 : Nat) (handlers : List InjectHandler) (draw : Nat → Nat)
    (byteDraw bitDraw : Nat) : DeviceResult :=
  match zio with
  | some z =>
    if z.io_type ≠ ZIO_TYPE_FLUSH ∧ z.probe = false ∧
        (z.io_offset < VDEV_LABEL_START_SIZE ∨
          vd.vdev_psize - VDEV_LABEL_END_SIZE ≤ z.io_offset) then
      ⟨0, handlers, zio, vd⟩
    else device_loop err1 err2 draw byteDraw bitDraw 0 vd zio handlers
  | none => device_loop err1 err2 draw byteDraw bitDraw 0 vd none handlers

/-- `zio_handle_device_injection` (single-error wrapper). -/
def zio_handle_device_injection (vd : VdevState) (zio : Option ZioDev)
    (error : Nat) (handlers : List InjectHandler) (draw : Nat → Nat)
    (byteDraw bitDraw : Nat) : DeviceResult :=
  zio_handle_device_injection_impl vd zio error INT_MAX handlers draw byteDraw bitDraw

/-! ### Label injection (`zio_handle_label_injection`) -/

/-- The handler loop of `zio_handle_label_injection`.  The vdev-geometry
helpers `vdev_label_number`/`vdev_label_offset` are external collaborators
and enter as function parameters `labelNumber`/`labelOffset`. -/
def label_loop (labelNumber : Nat → Nat → Nat)
    (labelOffset : Nat → Nat → Nat → Nat) (vd : VdevState)
    (ioOffset : Nat) (error : Nat) :
    List InjectHandler → Nat × List InjectHandler
  | [] => (0, [])
  | h :: t =>
    if h.zi_record.zi_cmd ≠ ZinjectType.labelFault then
      let r := label_loop labelNumber labelOffset vd ioOffset error t
      (r.1, h :: r.2)
    else
      let label := labelNumber vd.vdev_psize ioOffset
      let lstart := labelOffset vd.vdev_psize label h.zi_record.zi_start
      let lend := labelOffset vd.vdev_psize label h.zi_record.zi_end
      if vd.vdev_guid = h.zi_record.zi_guid ∧ lstart ≤ ioOffset ∧
          ioOffset ≤ lend then
        (error, bumpInject (bumpMatch h) :: t)
      else
        let r := label_loop labelNumber labelOffset vd ioOffset error t
        (r.1, h :: r.2)

/-- `zio_handle_label_injection`: only I/Os inside a label region are
considered. -/
def zio_handle_label_injection (labelNumber : Nat → Nat → Nat)
    (labelOffset : Nat → Nat → Nat → Nat) (vd : VdevState)
    (ioOffset : Nat) (error : Nat) (handlers : List InjectHandler) :
    Nat × List InjectHandler :=
  if VDEV_LABEL_START_SIZE ≤ ioOffset ∧
      ioOffset < vd.vdev_psize - VDEV_LABEL_END_SIZE then (0, handlers)
  else label_loop labelNumber labelOffset vd ioOffset error handlers

/-! ### Concrete fixtures used in closed statements -/

def flagsNone : ZinjectFlags := ⟨false, false, false, false⟩

def dnTrivial : DnodeInfo := ⟨0, 0, 0⟩

def recDelayOk : ZinjectRecord :=
  { emptyRecord with zi_cmd := ZinjectType.delayIo, zi_timer := 10, zi_nlanes := 2 }

def recDelayBad : ZinjectRecord :=
  { emptyRecord with zi_cmd := ZinjectType.delayIo, zi_nlanes := 2 }

/-- A data-fault handler for pool 5, first in the registry. -/
def hC3other : InjectHandler :=
  { emptyHandler with
    zi_id := 1,
    zi_spa := some 5,
    zi_record := { emptyRecord with zi_cmd := ZinjectType.dataFault } }

/-- A delay-import handler for pool 7 with a 3-second duration. -/
def hC3match : InjectHandler :=
  { emptyHandler with
    zi_id := 2,
    zi_spa_name := some 7,
    zi_record :=
      { emptyRecord with zi_cmd := ZinjectType.delayImport, zi_duration := 3 } }

/-- Registry holding the delay-import handler *behind* a handler of another
command. -/
def stC3 : InjectState :=
  { handlers := [hC3other, hC3match], zio_injection_enabled := 2,
    inject_delay_count := 0, inject_next_id := 3 }

/-- Registry holding only the delay-import handler. -/
def stC3b : InjectState :=
  { handlers := [hC3match], zio_injection_enabled := 1,
    inject_delay_count := 0, inject_next_id := 3 }

/-- A label-fault handler for vdev guid 3 covering label range `[0, 200]`. -/
def hC10 : InjectHandler :=
  { emptyHandler with
    zi_id := 1,
    zi_spa := some 5,
    zi_record :=
      { emptyRecord with
        zi_cmd := ZinjectType.labelFault,
        zi_guid := 3,
        zi_start := 0,
        zi_end := 200 } }

/-- A device-fault handler for vdev guid 3 injecting `EILSEQ` on any iotype. -/
def hC9 : InjectHandler :=
  { emptyHandler with
    zi_id := 1,
    zi_spa := some 5,
    zi_record :=
      { emptyRecord with
        zi_cmd := ZinjectType.deviceFault,
        zi_guid := 3,
        zi_error := EILSEQ,
        zi_iotype := ZINJECT_IOTYPE_ALL } }

/-- A read zio at the start of the data region with a two-segment buffer. -/
def zC9 : ZioDev :=
  { io_type := ZIO_TYPE_READ,
    probe := false,
    retryFlag := false,
    tryhard := false,
    io_offset := VDEV_LABEL_START_SIZE,
    abd := [[0, 0, 0], [5, 5]] }

def vdC9 : VdevState := ⟨3, 100000000, 0⟩

/-! ## Theorems -/

/-- The `matched` flag of `zio_match_handler` coincides with the match
condition as the specification words it. -/
theorem matched_iff_specMatches (zb : Zbookmark) (ty : Nat) (dva : Int)
    (record : ZinjectRecord) (error : Nat) :
    zio_match_handler_matched zb ty dva record error = true ↔
      specMatches zb ty dva record error := by
  unfold zio_match_handler_matched specMatches
  split
  · rename_i hguard
    simp only [Bool.or_eq_true, beq_iff_eq]
    constructor
    · rintro (h | h)
      · exact Or.inl ⟨hguard.1, hguard.2.1, hguard.2.2, Or.inl h⟩
      · exact Or.inl ⟨hguard.1, hguard.2.1, hguard.2.2, Or.inr h.symm⟩
    · rintro (⟨_, _, _, h | h⟩ | ⟨hn, _⟩)
      · exact Or.inl h
      · exact Or.inr h.symm
      · exact absurd hguard hn
  · rename_i hguard
    simp only [Bool.and_eq_true, beq_iff_eq, decide_eq_true_eq, Bool.or_eq_true,
      bne_iff_ne]
    constructor
    · rintro ⟨⟨⟨⟨⟨⟨h1, h2⟩, h3⟩, h4⟩, h5⟩, h6⟩, h7⟩
      exact Or.inr ⟨hguard, h1, h2, h3, h4, h5, h6, h7⟩
    · rintro (⟨ha, hb, hc, _⟩ | ⟨_, h1, h2, h3, h4, h5, h6, h7⟩)
      · exact absurd ⟨ha, hb, hc⟩ hguard
      · exact ⟨⟨⟨⟨⟨⟨h1, h2⟩, h3⟩, h4⟩, h5⟩, h6⟩, h7⟩

/-- **C1**: `zio_match_handler` reports an injection iff the record matches
(in the spec's sense: MOS shortcut, or otherwise the exact-match
conjunction) and the frequency gate fires; on every match `zi_match_count`
is incremented by exactly one, and `zi_inject_count` is incremented iff the
gate fired; no other record field changes. -/
theorem zio_match_handler_matches_spec (zb : Zbookmark) (ty : Nat) (dva : Int)
    (record : ZinjectRecord) (error : Nat) (draw : Nat) :
    ((zio_match_handler zb ty dva record error draw).1 = true ↔
      (specMatches zb ty dva record error ∧
        freq_triggered record.zi_freq draw = true)) ∧
    (zio_match_handler zb ty dva record error draw).2 =
      { record with
        zi_match_count := record.zi_match_count +
          (if specMatches zb ty dva record error then 1 else 0),
        zi_inject_count := record.zi_inject_count +
          (if (zio_match_handler zb ty dva record error draw).1 = true
            then 1 else 0) } := by
  have hiff := matched_iff_specMatches zb ty dva record error
  by_cases hm : zio_match_handler_matched zb ty dva record error = true
  · have hs : specMatches zb ty dva record error := hiff.mp hm
    by_cases hf : freq_triggered record.zi_freq draw = true
    · simp [zio_match_handler, hm, hf, hs]
    · have hf' : freq_triggered record.zi_freq draw = false :=
        Bool.not_eq_true _ ▸ Bool.eq_false_iff.mpr hf
      simp [zio_match_handler, hm, hf', hs]
  · have hs : ¬ specMatches zb ty dva record error := fun h => hm (hiff.mpr h)
    have hm' : zio_match_handler_matched zb ty dva record error = false :=
      Bool.eq_false_iff.mpr hm
    simp [zio_match_handler, hm', hs]

/-- **C4**: the frequency gate fires with certainty when `freq = 0`, and
otherwise fires iff the drawn integer `r ∈ [0, maximum)` satisfies
`r < freq`, where `maximum` is 100 for legacy frequencies `≤ 100` and
`ZI_PERCENTAGE_MAX` above. -/
theorem freq_triggered_spec (frequency r : Nat) :
    (frequency = 0 → freq_triggered frequency r = true) ∧
    (frequency ≠ 0 → r < freq_maximum frequency →
      (freq_triggered frequency r = true ↔ r < frequency)) ∧
    freq_maximum frequency =
      (if frequency ≤ 100 then 100 else ZI_PERCENTAGE_MAX) := by
  refine ⟨fun h => by simp [freq_triggered, h], fun h hr => ?_, rfl⟩
  simp [freq_triggered, h, Nat.mod_eq_of_lt hr]

/-- Witness for `freq_triggered_spec` at `freq = 0`, and at the scaled
frequency 150 with draw 149. -/
theorem freq_triggered_spec_witness :
    freq_triggered 0 7 = true ∧ (freq_triggered 150 149 = true ↔ 149 < 150) :=
  ⟨(freq_triggered_spec 0 7).1 rfl,
    (freq_triggered_spec 150 149).2.1 (by decide) (by decide)⟩

theorem shiftLevels_zero (n s : Nat) : shiftLevels n s 0 = 0 := by
  induction n with
  | zero => rfl
  | succ n ih => simpa [shiftLevels] using ih

/-- **C5 counterexample**: the full-range sentinel record
`[0, 2^64 - 1]` is *not* shifted by `datablkshift` (the source only shifts
under `zi_start != 0 || zi_end != -1ULL`), contradicting the claim that
every successfully looked-up record has both bounds shifted. -/
theorem zio_calculate_range_sentinel_counterexample :
    zio_calculate_range ⟨12, 1, 17⟩ { emptyRecord with zi_end := U64MAX } =
      Except.ok { emptyRecord with zi_end := U64MAX } ∧
    zio_calculate_range ⟨12, 1, 17⟩ { emptyRecord with zi_end := U64MAX } ≠
      Except.ok { emptyRecord with zi_end := U64MAX >>> 12 } := by
  constructor
  · rfl
  · decide

/-- **C5 (amended)**: for a successfully looked-up record, `zi_start` and
`zi_end` are shifted right by `datablkshift` *except* when the record is the
full-range sentinel `zi_start = 0 ∧ zi_end = 2^64 - 1`, which skips that
shift; for `zi_level > 0`, `zi_level ≥ nlevels` yields `EDOM` (and through
`zio_inject_fault` no handler is installed and the state is unchanged), and
otherwise both bounds are further shifted right by
`indblkshift − SPA_BLKPTRSHIFT` per level descended — a sentinel record at
an indirect level keeps `zi_start = 0` and has `zi_end = 2^64 - 1`
level-shifted only; in particular byte range `[4096, 8191]` at
`datablkshift = 12`, level 0 yields `start = end = 1`. -/
theorem zio_calculate_range_spec :
    (∀ (dn : DnodeInfo) (r : ZinjectRecord),
      ¬(r.zi_start = 0 ∧ r.zi_end = U64MAX) → r.zi_level = 0 →
      zio_calculate_range dn r = Except.ok { r with
        zi_start := r.zi_start >>> dn.datablkshift,
        zi_end := r.zi_end >>> dn.datablkshift }) ∧
    (∀ (dn : DnodeInfo) (r : ZinjectRecord),
      r.zi_start = 0 → r.zi_end = U64MAX → r.zi_level = 0 →
      zio_calculate_range dn r = Except.ok r) ∧
    (∀ (dn : DnodeInfo) (r : ZinjectRecord),
      0 < r.zi_level → dn.nlevels ≤ r.zi_level →
      zio_calculate_range dn r = Except.error EDOM) ∧
    (∀ (dn : DnodeInfo) (r : ZinjectRecord),
      ¬(r.zi_start = 0 ∧ r.zi_end = U64MAX) →
      0 < r.zi_level → r.zi_level < dn.nlevels →
      zio_calculate_range dn r = Except.ok { r with
        zi_start := shiftLevels r.zi_level (dn.indblkshift - SPA_BLKPTRSHIFT)
          (r.zi_start >>> dn.datablkshift),
        zi_end := shiftLevels r.zi_level (dn.indblkshift - SPA_BLKPTRSHIFT)
          (r.zi_end >>> dn.datablkshift) }) ∧
    (∀ (dn : DnodeInfo) (r : ZinjectRecord),
      r.zi_start = 0 → r.zi_end = U64MAX →
      0 < r.zi_level → r.zi_level < dn.nlevels →
      zio_calculate_range dn r = Except.ok { r with
        zi_end := shiftLevels r.zi_level (dn.indblkshift - SPA_BLKPTRSHIFT)
          r.zi_end }) ∧
    (∀ (spaResetResult : Nat) (hspa : Bool) (name : Nat) (flags : ZinjectFlags)
        (record : ZinjectRecord) (st : InjectState) (dn : DnodeInfo),
      flags.unloadSpa = false → flags.calcRange = true →
      record.zi_cmd ≠ ZinjectType.delayIo →
      0 < record.zi_level → dn.nlevels ≤ record.zi_level →
      zio_inject_fault spaResetResult (Except.ok dn) hspa name flags record st =
        (EDOM, none, st)) ∧
    zio_calculate_range ⟨12, 1, 17⟩
        { emptyRecord with zi_start := 4096, zi_end := 8191 } =
      Except.ok { emptyRecord with zi_start := 1, zi_end := 1 } := by
  have hEDOM : ∀ (dn : DnodeInfo) (r : ZinjectRecord),
      0 < r.zi_level → dn.nlevels ≤ r.zi_level →
      zio_calculate_range dn r = Except.error EDOM := by
    intro dn r hl hnl
    unfold zio_calculate_range
    by_cases hA : r.zi_start ≠ 0 ∨ r.zi_end ≠ U64MAX
    · rw [if_pos hA]
      simp [hl, hnl]
    · rw [if_neg hA]
      simp [hl, hnl]
  refine ⟨?_, ?_, hEDOM, ?_, ?_, ?_, by decide⟩
  · intro dn r hsent hl
    have hA : r.zi_start ≠ 0 ∨ r.zi_end ≠ U64MAX := by tauto
    unfold zio_calculate_range
    rw [if_pos hA]
    simp [hl]
  · intro dn r h1 h2 hl
    have hA : ¬(r.zi_start ≠ 0 ∨ r.zi_end ≠ U64MAX) := by simp [h1, h2]
    unfold zio_calculate_range
    rw [if_neg hA]
    simp [hl]
  · intro dn r hsent hl hnl
    have hA : r.zi_start ≠ 0 ∨ r.zi_end ≠ U64MAX := by tauto
    unfold zio_calculate_range
    rw [if_pos hA]
    simp only [hl, if_pos, Nat.not_le.mpr hnl, if_neg, not_false_eq_true]
    by_cases hz : r.zi_start >>> dn.datablkshift ≠ 0 ∨ r.zi_end >>> dn.datablkshift ≠ 0
    · simp [hl, Nat.not_le.mpr hnl, hz]
    · push_neg at hz
      simp [hl, Nat.not_le.mpr hnl, hz.1, hz.2, shiftLevels_zero]
  · intro dn r h1 h2 hl hnl
    have hA : ¬(r.zi_start ≠ 0 ∨ r.zi_end ≠ U64MAX) := by simp [h1, h2]
    unfold zio_calculate_range
    rw [if_neg hA]
    have hz : r.zi_start ≠ 0 ∨ r.zi_end ≠ 0 := by
      right
      rw [h2]
      decide
    simp [hl, Nat.not_le.mpr hnl, hz, h1, shiftLevels_zero]
    intro he
    rw [h2] at he
    exact absurd he (by decide)
  · intro sr hspa name flags record st dn hU hC hcmd hl hnl
    unfold zio_inject_fault
    rw [if_neg (by simp [hU])]
    rw [if_neg (by simp [hcmd]), if_neg (by simp [hcmd])]
    simp only [hC, if_pos, hEDOM dn record hl hnl]

/-- Witness for `zio_calculate_range_spec`: the S6 scenario discharged
through the first conjunct. -/
theorem zio_calculate_range_spec_witness :
    zio_calculate_range ⟨12, 1, 17⟩
        { emptyRecord with zi_start := 4096, zi_end := 8191 } =
      Except.ok { { emptyRecord with zi_start := 4096, zi_end := 8191 } with
        zi_start := 4096 >>> 12, zi_end := 8191 >>> 12 } :=
  zio_calculate_range_spec.1 ⟨12, 1, 17⟩
    { emptyRecord with zi_start := 4096, zi_end := 8191 } (by decide) rfl

/-- **C6**: registration validation.  A delay-io record with zero timer or
zero lanes (or `nlanes ≥ UINT16_MAX`) is rejected with `EINVAL`; a
delay-import/delay-export registration is rejected with `EINVAL` on
non-positive duration, `EEXIST` on a duplicate pool-delay handler, `EEXIST`
for delay-import on a loaded pool and `ENOENT` for delay-export on an
unloaded pool; in every case the state (and hence the handler list) is
unchanged. -/
theorem zio_inject_fault_validation_spec :
    (∀ (sr : Nat) (lr : Except Nat DnodeInfo) (hspa : Bool) (name : Nat)
        (flags : ZinjectFlags) (record : ZinjectRecord) (st : InjectState),
      flags.unloadSpa = false → record.zi_cmd = ZinjectType.delayIo →
      (record.zi_timer = 0 ∨ record.zi_nlanes = 0) →
      zio_inject_fault sr lr hspa name flags record st = (EINVAL, none, st)) ∧
    (∀ (sr : Nat) (lr : Except Nat DnodeInfo) (hspa : Bool) (name : Nat)
        (flags : ZinjectFlags) (record : ZinjectRecord) (st : InjectState),
      flags.unloadSpa = false → record.zi_cmd = ZinjectType.delayIo →
      UINT16_MAX ≤ record.zi_nlanes →
      zio_inject_fault sr lr hspa name flags record st = (EINVAL, none, st)) ∧
    (∀ (sr : Nat) (lr : Except Nat DnodeInfo) (hspa : Bool) (name : Nat)
        (flags : ZinjectFlags) (record : ZinjectRecord) (st : InjectState),
      flags.unloadSpa = false → flags.calcRange = false →
      flags.nullFlag = false →
      (record.zi_cmd = ZinjectType.delayImport ∨
        record.zi_cmd = ZinjectType.delayExport) →
      record.zi_duration ≤ 0 →
      zio_inject_fault sr lr hspa name flags record st = (EINVAL, none, st)) ∧
    (∀ (sr : Nat) (lr : Except Nat DnodeInfo) (hspa : Bool) (name : Nat)
        (flags : ZinjectFlags) (record : ZinjectRecord) (st : InjectState),
      flags.unloadSpa = false → flags.calcRange = false →
      flags.nullFlag = false →
      (record.zi_cmd = ZinjectType.delayImport ∨
        record.zi_cmd = ZinjectType.delayExport) →
      0 < record.zi_duration →
      zio_pool_handler_exists st name record.zi_cmd = true →
      zio_inject_fault sr lr hspa name flags record st = (EEXIST, none, st)) ∧
    (∀ (sr : Nat) (lr : Except Nat DnodeInfo) (name : Nat)
        (flags : ZinjectFlags) (record : ZinjectRecord) (st : InjectState),
      flags.unloadSpa = false → flags.calcRange = false →
      flags.nullFlag = false →
      record.zi_cmd = ZinjectType.delayImport →
      0 < record.zi_duration →
      zio_pool_handler_exists st name record.zi_cmd = false →
      zio_inject_fault sr lr true name flags record st = (EEXIST, none, st)) ∧
    (∀ (sr : Nat) (lr : Except Nat DnodeInfo) (name : Nat)
        (flags : ZinjectFlags) (record : ZinjectRecord) (st : InjectState),
      flags.unloadSpa = false → flags.calcRange = false →
      flags.nullFlag = false →
      record.zi_cmd = ZinjectType.delayExport →
      0 < record.zi_duration →
      zio_pool_handler_exists st name record.zi_cmd = false →
      zio_inject_fault sr lr false name flags record st = (ENOENT, none, st)) := by
  refine ⟨?_, ?_, ?_, ?_, ?_, ?_⟩
  · intro sr lr hspa name flags record st hU hcmd hbad
    unfold zio_inject_fault
    rw [if_neg (by simp [hU]), if_pos ⟨hcmd, hbad⟩]
  · intro sr lr hspa name flags record st hU hcmd hge
    unfold zio_inject_fault
    rw [if_neg (by simp [hU])]
    by_cases hb : record.zi_timer = 0 ∨ record.zi_nlanes = 0
    · rw [if_pos ⟨hcmd, hb⟩]
    · rw [if_neg (by tauto), if_pos ⟨hcmd, hge⟩]
  · intro sr lr hspa name flags record st hU hC hN hpd hdur
    rcases hpd with hcmd | hcmd <;>
      simp [zio_inject_fault, hU, hC, hN, hcmd, hdur]
  · intro sr lr hspa name flags record st hU hC hN hpd hdur hex
    have hd : ¬ record.zi_duration ≤ 0 := by omega
    rcases hpd with hcmd | hcmd <;> rw [hcmd] at hex <;>
      simp [zio_inject_fault, hU, hC, hN, hcmd, hd, hex]
  · intro sr lr name flags record st hU hC hN hcmd hdur hex
    have hd : ¬ record.zi_duration ≤ 0 := by omega
    rw [hcmd] at hex
    simp [zio_inject_fault, hU, hC, hN, hcmd, hd, hex]
  · intro sr lr name flags record st hU hC hN hcmd hdur hex
    have hd : ¬ record.zi_duration ≤ 0 := by omega
    rw [hcmd] at hex
    simp [zio_inject_fault, hU, hC, hN, hcmd, hd, hex]

/-- Witness for `zio_inject_fault_validation_spec`: a zero-timer delay-io
record is rejected with `EINVAL` leaving the initial state untouched. -/
theorem zio_inject_fault_validation_spec_witness :
    zio_inject_fault 0 (Except.ok dnTrivial) true 5 flagsNone recDelayBad
      initialInjectState = (EINVAL, none, initialInjectState) :=
  zio_inject_fault_validation_spec.1 0 (Except.ok dnTrivial) true 5 flagsNone
    recDelayBad initialInjectState rfl rfl (Or.inl rfl)

theorem installHandler_invariant (st : InjectState) (spa spaName : Option Nat)
    (record : ZinjectRecord) (h : stateInvariant st) :
    stateInvariant (installHandler st spa spaName record).2.2 := by
  obtain ⟨h1, h2⟩ := h
  unfold installHandler stateInvariant
  refine ⟨by simp [h1], ?_⟩
  by_cases hc : record.zi_cmd = ZinjectType.delayIo <;>
    simp [List.filter_append, h2, hc]

set_option maxHeartbeats 2000000 in
/-- Every call to `zio_inject_fault` either leaves the state unchanged or
installs exactly one handler through `installHandler`. -/
theorem zio_inject_fault_state_shape (sr : Nat) (lr : Except Nat DnodeInfo)
    (hspa : Bool) (name : Nat) (flags : ZinjectFlags) (record : ZinjectRecord)
    (st : InjectState) :
    (zio_inject_fault sr lr hspa name flags record st).2.2 = st ∨
    ∃ spa spaName record1,
      zio_inject_fault sr lr hspa name flags record st =
        installHandler st spa spaName record1 := by
  simp only [zio_inject_fault]
  split
  · exact Or.inl rfl
  split
  · exact Or.inl rfl
  split
  · exact Or.inl rfl
  split
  · exact Or.inl rfl
  split
  · exact Or.inl rfl
  split
  · split
    · exact Or.inl rfl
    split
    · exact Or.inl rfl
    split
    · exact Or.inl rfl
    split
    · exact Or.inl rfl
    exact Or.inr ⟨_, _, _, rfl⟩
  · split
    · exact Or.inl rfl
    exact Or.inr ⟨_, _, _, rfl⟩

theorem removeById_spec (id : Nat) :
    ∀ (l : List InjectHandler) (h : InjectHandler) (rest : List InjectHandler),
    removeById id l = some (h, rest) →
      l.length = rest.length + 1 ∧
      (l.filter (fun g => g.zi_record.zi_cmd == ZinjectType.delayIo)).length =
        (rest.filter (fun g => g.zi_record.zi_cmd == ZinjectType.delayIo)).length +
        (if h.zi_record.zi_cmd = ZinjectType.delayIo then 1 else 0) := by
  intro l
  induction l with
  | nil => intro h rest hr; simp [removeById] at hr
  | cons a t ih =>
    intro h rest hr
    unfold removeById at hr
    by_cases ha : a.zi_id = id
    · rw [if_pos ha] at hr
      have hp := Option.some.inj hr
      obtain ⟨rfl, rfl⟩ : a = h ∧ t = rest :=
        ⟨congrArg Prod.fst hp, congrArg Prod.snd hp⟩
      by_cases hc : a.zi_record.zi_cmd = ZinjectType.delayIo <;>
        simp [List.filter_cons, hc]
    · rw [if_neg ha] at hr
      cases hrec : removeById id t with
      | none => rw [hrec] at hr; simp at hr
      | some p =>
        rw [hrec] at hr
        have hp := Option.some.inj hr
        have hp1 : p.1 = h := congrArg Prod.fst hp
        have hp2 : a :: p.2 = rest := congrArg Prod.snd hp
        obtain ⟨hlen, hfil⟩ := ih p.1 p.2 (by rw [hrec])
        subst hp1
        rw [← hp2]
        constructor
        · simp [hlen]
        · by_cases hc : a.zi_record.zi_cmd = ZinjectType.delayIo
          · simp [List.filter_cons, hc, hfil]
            omega
          · simp [List.filter_cons, hc, hfil]

/-- **C7**: `zio_injection_enabled` counts the registered handlers and
`inject_delay_count` counts the registered delay-io handlers: both hold
initially and are preserved by every (successful, non-NULL) registration and
every successful clear; with no handlers left, both counts are zero. -/
theorem inject_counts_invariant :
    stateInvariant initialInjectState ∧
    (∀ (sr : Nat) (lr : Except Nat DnodeInfo) (hspa : Bool) (name : Nat)
        (flags : ZinjectFlags) (record : ZinjectRecord) (st : InjectState),
      stateInvariant st → flags.nullFlag = false →
      (zio_inject_fault sr lr hspa name flags record st).1 = 0 →
      stateInvariant (zio_inject_fault sr lr hspa name flags record st).2.2) ∧
    (∀ (st : InjectState) (id : Nat),
      stateInvariant st → (zio_clear_fault st id).1 = 0 →
      stateInvariant (zio_clear_fault st id).2) ∧
    (∀ st : InjectState, stateInvariant st → st.handlers = [] →
      st.zio_injection_enabled = 0 ∧ st.inject_delay_count = 0) := by
  refine ⟨⟨rfl, rfl⟩, ?_, ?_, ?_⟩
  · intro sr lr hspa name flags record st hinv _ _
    rcases zio_inject_fault_state_shape sr lr hspa name flags record st with
      h | ⟨spa, sn, r1, h⟩
    · rw [h]; exact hinv
    · rw [h]; exact installHandler_invariant st spa sn r1 hinv
  · intro st id hinv hret
    unfold zio_clear_fault at hret ⊢
    cases hrem : removeById id st.handlers with
    | none => rw [hrem] at hret; simp [ENOENT] at hret
    | some p =>
      obtain ⟨hh, rest⟩ := p
      obtain ⟨hlen, hfil⟩ := removeById_spec id st.handlers hh rest hrem
      obtain ⟨h1, h2⟩ := hinv
      refine ⟨?_, ?_⟩
      · show st.zio_injection_enabled - 1 = rest.length
        omega
      · show st.inject_delay_count -
            (if hh.zi_record.zi_cmd = ZinjectType.delayIo then 1 else 0) =
          (rest.filter
            (fun g => g.zi_record.zi_cmd == ZinjectType.delayIo)).length
        by_cases hc : hh.zi_record.zi_cmd = ZinjectType.delayIo <;>
          simp [hc] at hfil ⊢ <;> omega
  · intro st hinv he
    obtain ⟨h1, h2⟩ := hinv
    rw [he] at h1 h2
    simpa using ⟨h1, h2⟩

/-- Witness for `inject_counts_invariant`: the invariant survives one
registration followed by its clear. -/
theorem inject_counts_invariant_witness :
    stateInvariant
      (zio_inject_fault 0 (Except.ok dnTrivial) true 5 flagsNone recDelayOk
        initialInjectState).2.2 :=
  inject_counts_invariant.2.1 0 (Except.ok dnTrivial) true 5 flagsNone
    recDelayOk initialInjectState ⟨rfl, rfl⟩ rfl (by decide)

/-- **C3 counterexample**: a registered delay-import handler for pool 7 with
positive duration sits *behind* a data-fault handler; the scan of
`zio_handle_pool_delay` stops at the first handler of a different command, so
the call sleeps 0 ns, changes nothing, clears nothing, and a subsequent
`list_next` still returns the handler's id 2 — contradicting the claim that
the handler is located wherever it sits in the list. -/
theorem zio_handle_pool_delay_counterexample :
    zio_handle_pool_delay 7 0 ZinjectType.delayImport stC3 = (0, stC3) ∧
    (zio_inject_list_next
        (zio_handle_pool_delay 7 0 ZinjectType.delayImport stC3).2 1).map
      (fun p => p.1) = some 2 := by
  decide

theorem pool_delay_scan_prefix (spaName elapsed : Nat) (command : ZinjectType)
    (pre : List InjectHandler) (h : InjectHandler) (rest : List InjectHandler)
    (hpre : ∀ g ∈ pre, g.zi_record.zi_cmd = command)
    (hprename : ∀ g ∈ pre, g.zi_spa_name ≠ some spaName)
    (hcmd : h.zi_record.zi_cmd = command)
    (hname : h.zi_spa_name = some spaName) :
    pool_delay_scan spaName elapsed command (pre ++ h :: rest) =
      (pre ++ (if (elapsed : Int) < SEC2NSEC h.zi_record.zi_duration
          then bumpInject (bumpMatch h) else bumpMatch h) :: rest,
        (if (elapsed : Int) < SEC2NSEC h.zi_record.zi_duration
          then (SEC2NSEC h.zi_record.zi_duration - elapsed).toNat else 0),
        h.zi_id) := by
  induction pre with
  | nil =>
    simp only [List.nil_append]
    unfold pool_delay_scan
    rw [if_neg (by simp [hcmd]), if_pos hname]
    by_cases hp : (elapsed : Int) < SEC2NSEC h.zi_record.zi_duration
    · rw [if_pos hp]; simp [hp]
    · rw [if_neg hp]; simp [hp]
  | cons g pre ih =>
    have hg := hpre g (by simp)
    have hgname := hprename g (by simp)
    simp only [List.cons_append]
    unfold pool_delay_scan
    rw [if_neg (by simp [hg]), if_neg hgname,
      ih (fun x hx => hpre x (by simp [hx]))
        (fun x hx => hprename x (by simp [hx]))]

theorem removeById_prefix (id : Nat) (pre : List InjectHandler)
    (h : InjectHandler) (rest : List InjectHandler)
    (hpre : ∀ g ∈ pre, g.zi_id ≠ id) (hid : h.zi_id = id) :
    removeById id (pre ++ h :: rest) = some (h, pre ++ rest) := by
  induction pre with
  | nil => simp [removeById, hid]
  | cons g pre ih =>
    have hg := hpre g (by simp)
    simp only [List.cons_append]
    unfold removeById
    rw [if_neg hg, ih (fun x hx => hpre x (by simp [hx]))]

/-- **C3 (amended)**: `zio_handle_pool_delay` locates the registered
pool-delay handler *provided every handler before it in the list also has
the requested command* (the scan stops at the first foreign-command
handler); it then bumps `zi_match_count`, sleeps `duration − elapsed`
nanoseconds when positive (bumping `zi_inject_count`) and not at all
otherwise, and clears the handler, after which `list_next` never returns its
id. -/
theorem zio_handle_pool_delay_prefix_spec
    (st : InjectState) (pre : List InjectHandler) (h : InjectHandler)
    (rest : List InjectHandler) (spaName elapsed : Nat) (command : ZinjectType)
    (hsplit : st.handlers = pre ++ h :: rest)
    (hpre : ∀ g ∈ pre, g.zi_record.zi_cmd = command)
    (hprename : ∀ g ∈ pre, g.zi_spa_name ≠ some spaName)
    (hcmd : h.zi_record.zi_cmd = command)
    (hname : h.zi_spa_name = some spaName)
    (hcmdpool : command = ZinjectType.delayImport ∨
      command = ZinjectType.delayExport)
    (hid : 0 < h.zi_id)
    (hfresh : ∀ g ∈ pre ++ rest, g.zi_id ≠ h.zi_id) :
    pool_delay_scan spaName elapsed command st.handlers =
      (pre ++ (if (elapsed : Int) < SEC2NSEC h.zi_record.zi_duration
          then bumpInject (bumpMatch h) else bumpMatch h) :: rest,
        (if (elapsed : Int) < SEC2NSEC h.zi_record.zi_duration
          then (SEC2NSEC h.zi_record.zi_duration - elapsed).toNat else 0),
        h.zi_id) ∧
    (zio_handle_pool_delay spaName elapsed command st).1 =
      (if (elapsed : Int) < SEC2NSEC h.zi_record.zi_duration
        then (SEC2NSEC h.zi_record.zi_duration - elapsed).toNat else 0) ∧
    (zio_handle_pool_delay spaName elapsed command st).2.handlers =
      pre ++ rest ∧
    (zio_handle_pool_delay spaName elapsed command st).2.zio_injection_enabled =
      st.zio_injection_enabled - 1 ∧
    (zio_handle_pool_delay spaName elapsed command st).2.inject_delay_count =
      st.inject_delay_count ∧
    (∀ cursor p, zio_inject_list_next
        (zio_handle_pool_delay spaName elapsed command st).2 cursor = some p →
      p.1 ≠ h.zi_id) := by
  have hscan := pool_delay_scan_prefix spaName elapsed command pre h rest hpre
    hprename hcmd hname
  have hBid : (if (elapsed : Int) < SEC2NSEC h.zi_record.zi_duration
      then bumpInject (bumpMatch h) else bumpMatch h).zi_id = h.zi_id := by
    by_cases hp : (elapsed : Int) < SEC2NSEC h.zi_record.zi_duration <;>
      simp [hp, bumpInject, bumpMatch]
  have hBcmd : (if (elapsed : Int) < SEC2NSEC h.zi_record.zi_duration
      then bumpInject (bumpMatch h) else bumpMatch h).zi_record.zi_cmd =
        command := by
    by_cases hp : (elapsed : Int) < SEC2NSEC h.zi_record.zi_duration <;>
      simp [hp, bumpInject, bumpMatch, hcmd]
  have hnotio : command ≠ ZinjectType.delayIo := by
    rcases hcmdpool with hc | hc <;> simp [hc]
  have hrem := removeById_prefix h.zi_id pre
    (if (elapsed : Int) < SEC2NSEC h.zi_record.zi_duration
      then bumpInject (bumpMatch h) else bumpMatch h) rest
    (fun g hg => hfresh g (List.mem_append_left rest hg)) hBid
  have hres : zio_handle_pool_delay spaName elapsed command st =
      ((if (elapsed : Int) < SEC2NSEC h.zi_record.zi_duration
        then (SEC2NSEC h.zi_record.zi_duration - elapsed).toNat else 0),
        { handlers := pre ++ rest,
          zio_injection_enabled := st.zio_injection_enabled - 1,
          inject_delay_count := st.inject_delay_count,
          inject_next_id := st.inject_next_id }) := by
    unfold zio_handle_pool_delay
    rw [hsplit, hscan]
    simp only
    unfold zio_clear_fault
    rw [hrem]
    simp only
    rw [hBcmd]
    have hne0 : h.zi_id ≠ 0 := by omega
    simp [hne0, hnotio]
  refine ⟨hsplit ▸ hscan, by rw [hres], by rw [hres], by rw [hres],
    by rw [hres], ?_⟩
  intro cursor p hp
  rw [hres] at hp
  unfold zio_inject_list_next at hp
  cases hfind : List.find? (fun g => decide (cursor < g.zi_id)) (pre ++ rest) with
  | none => rw [hfind] at hp; simp at hp
  | some g =>
    rw [hfind] at hp
    have hmem := List.mem_of_find?_eq_some hfind
    have hne := hfresh g hmem
    have hp1 : p.1 = g.zi_id := by
      have := Option.some.inj hp
      rw [← this]
    rw [hp1]
    exact hne

/-- Witness for `zio_handle_pool_delay_prefix_spec`: the S5 scenario —
the delay-import handler for pool 7 (duration 3 s) alone in the registry,
elapsed 0: the call sleeps 3 s and the registry is left empty. -/
theorem zio_handle_pool_delay_prefix_spec_witness :
    (zio_handle_pool_delay 7 0 ZinjectType.delayImport stC3b).1 = 3000000000 ∧
    (zio_handle_pool_delay 7 0 ZinjectType.delayImport stC3b).2.handlers = [] := by
  have hspec := zio_handle_pool_delay_prefix_spec stC3b [] hC3match [] 7 0
    ZinjectType.delayImport rfl (by simp) (by simp) rfl rfl (Or.inl rfl)
    (by decide) (by simp)
  refine ⟨?_, ?_⟩
  · rw [hspec.2.1]; decide
  · simpa using hspec.2.2.1

/-- **C10**: on the label path, a matching label-fault handler (guid matches
and the translated `[start, end]` range contains the offset) returns the
requested error and has *both* counters incremented unconditionally — the
result is the same for every value of `zi_freq`, i.e. the frequency gate is
never consulted, unlike the data, device and delay paths. -/
theorem zio_handle_label_injection_unconditional (labelNumber : Nat → Nat → Nat)
    (labelOffset : Nat → Nat → Nat → Nat) (vd : VdevState)
    (ioOffset error freq2 : Nat) (h : InjectHandler)
    (rest : List InjectHandler)
    (hregion : ¬(VDEV_LABEL_START_SIZE ≤ ioOffset ∧
      ioOffset < vd.vdev_psize - VDEV_LABEL_END_SIZE))
    (hcmd : h.zi_record.zi_cmd = ZinjectType.labelFault)
    (hguid : vd.vdev_guid = h.zi_record.zi_guid)
    (hlo : labelOffset vd.vdev_psize (labelNumber vd.vdev_psize ioOffset)
      h.zi_record.zi_start ≤ ioOffset)
    (hhi : ioOffset ≤ labelOffset vd.vdev_psize
      (labelNumber vd.vdev_psize ioOffset) h.zi_record.zi_end) :
    zio_handle_label_injection labelNumber labelOffset vd ioOffset error
      ({ h with zi_record := { h.zi_record with zi_freq := freq2 } } :: rest) =
    (error,
      { h with zi_record :=
        { h.zi_record with
          zi_freq := freq2,
          zi_match_count := h.zi_record.zi_match_count + 1,
          zi_inject_count := h.zi_record.zi_inject_count + 1 } } :: rest) := by
  unfold zio_handle_label_injection
  rw [if_neg hregion]
  unfold label_loop
  rw [if_neg (by simp [hcmd]), if_pos ⟨hguid, hlo, hhi⟩]
  simp [bumpMatch, bumpInject]

/-- Witness for `zio_handle_label_injection_unconditional`: a label write at
offset 100 hits the `[0, 200]` label-fault record for vdev guid 3 even with
`zi_freq = 55`; the injected error 5 (`EIO`) comes back and both counters
are bumped. -/
theorem zio_handle_label_injection_unconditional_witness :
    zio_handle_label_injection (fun _ _ => 0) (fun _ _ o => o)
      ⟨3, 100000000, 0⟩ 100 5
      ({ hC10 with zi_record := { hC10.zi_record with zi_freq := 55 } } :: []) =
    (5, { hC10 with zi_record :=
      { hC10.zi_record with
        zi_freq := 55,
        zi_match_count := hC10.zi_record.zi_match_count + 1,
        zi_inject_count := hC10.zi_record.zi_inject_count + 1 } } :: []) :=
  zio_handle_label_injection_unconditional (fun _ _ => 0) (fun _ _ o => o)
    ⟨3, 100000000, 0⟩ 100 5 55 hC10 [] (by decide) rfl rfl (by decide) (by decide)

/-- **C9**: a matching, firing `EILSEQ` device-fault record returns 0 (not an
errno); with a zio present exactly one bit — at a drawn byte and bit position
of the *first* buffer segment, the iteration stopping there — is flipped
(all other bytes and all later segments unchanged); with no zio the call
returns 0 touching no buffer. -/
theorem device_injection_eilseq_spec (vd : VdevState) (zio : Option ZioDev)
    (err1 err2 : Nat) (h : InjectHandler) (rest : List InjectHandler)
    (draw : Nat → Nat) (byteDraw bitDraw : Nat)
    (hcmd : h.zi_record.zi_cmd = ZinjectType.deviceFault)
    (hguid : vd.vdev_guid = h.zi_record.zi_guid)
    (heil : h.zi_record.zi_error = EILSEQ)
    (herr : h.zi_record.zi_error = err1 ∨ h.zi_record.zi_error = err2)
    (hff : ¬(h.zi_record.zi_failfast = true ∧ zioRetrying zio = true))
    (hfreq : freq_triggered h.zi_record.zi_freq (draw 0) = true) :
    (zio = none →
      zio_handle_device_injection_impl vd zio err1 err2 (h :: rest) draw
          byteDraw bitDraw =
        ⟨0, bumpInject (bumpMatch h) :: rest, none,
          if err1 = ENXIO then { vd with vs_aux := VDEV_AUX_OPEN_FAILED }
          else vd⟩) ∧
    (∀ (z : ZioDev) (seg0 : List Nat) (segs : List (List Nat)),
      zio = some z →
      zio_match_iotype z.io_type z.probe h.zi_record.zi_iotype = true →
      (z.io_type = ZIO_TYPE_FLUSH ∨ z.probe = true ∨
        (VDEV_LABEL_START_SIZE ≤ z.io_offset ∧
          z.io_offset < vd.vdev_psize - VDEV_LABEL_END_SIZE)) →
      z.abd = seg0 :: segs → seg0 ≠ [] →
      ∃ b j, b < seg0.length ∧ j < 8 ∧
        zio_handle_device_injection_impl vd zio err1 err2 (h :: rest) draw
            byteDraw bitDraw =
          ⟨0, bumpInject (bumpMatch h) :: rest,
            some { z with
              retryFlag :=
                if h.zi_record.zi_failfast = false then true else z.retryFlag,
              abd := seg0.set b (seg0.getD b 0 ^^^ (1 <<< j)) :: segs },
            if err1 = ENXIO then { vd with vs_aux := VDEV_AUX_OPEN_FAILED }
            else vd⟩ ∧
        (∀ jj, jj < 8 →
          ((seg0.getD b 0 ^^^ (1 <<< j)).testBit jj ≠ (seg0.getD b 0).testBit jj
            ↔ jj = j))) := by
  constructor
  · intro hz
    subst hz
    have hffb : h.zi_record.zi_failfast = false := by
      rcases Bool.eq_false_or_eq_true h.zi_record.zi_failfast with hb | hb
      · exact absurd ⟨hb, rfl⟩ hff
      · exact hb
    have hnot1 : ¬(h.zi_record.zi_cmd ≠ ZinjectType.deviceFault ∨
        vd.vdev_guid ≠ h.zi_record.zi_guid ∨
        (h.zi_record.zi_failfast = true ∧
          zioRetrying (none : Option ZioDev) = true) ∨
        (∃ zz, (none : Option ZioDev) = some zz ∧
          zio_match_iotype zz.io_type zz.probe h.zi_record.zi_iotype = false)) := by
      rintro (hA | hB | hC | ⟨zz, hzz, _⟩)
      · exact hA hcmd
      · exact hB hguid
      · exact hff hC
      · simp at hzz
    simp only [zio_handle_device_injection_impl]
    unfold device_loop
    rw [if_neg hnot1, if_pos herr, if_neg (by simp [hfreq]), if_pos heil]
    simp [hffb, setRetryFlag]
  · intro z seg0 segs hz hio hlabel habd hseg
    subst hz
    refine ⟨byteDraw % seg0.length, bitDraw % 8,
      Nat.mod_lt _ (List.length_pos.mpr hseg), Nat.mod_lt _ (by norm_num),
      ?_, ?_⟩
    · have hnlab : ¬(z.io_type ≠ ZIO_TYPE_FLUSH ∧ z.probe = false ∧
          (z.io_offset < VDEV_LABEL_START_SIZE ∨
            vd.vdev_psize - VDEV_LABEL_END_SIZE ≤ z.io_offset)) := by
        rintro ⟨ha, hb, hc⟩
        rcases hlabel with hl | hl | ⟨hl1, hl2⟩
        · exact ha hl
        · rw [hl] at hb; cases hb
        · rcases hc with hc | hc <;> omega
      have hnot1 : ¬(h.zi_record.zi_cmd ≠ ZinjectType.deviceFault ∨
          vd.vdev_guid ≠ h.zi_record.zi_guid ∨
          (h.zi_record.zi_failfast = true ∧ zioRetrying (some z) = true) ∨
          (∃ zz, (some z : Option ZioDev) = some zz ∧
            zio_match_iotype zz.io_type zz.probe h.zi_record.zi_iotype = false)) := by
        rintro (hA | hB | hC | ⟨zz, hzz, hzio⟩)
        · exact hA hcmd
        · exact hB hguid
        · exact hff hC
        · cases Option.some.inj hzz
          rw [hio] at hzio
          cases hzio
      simp only [zio_handle_device_injection_impl]
      rw [if_neg hnlab]
      unfold device_loop
      rw [if_neg hnot1, if_pos herr, if_neg (by simp [hfreq]), if_pos heil]
      by_cases hffb : h.zi_record.zi_failfast = false
      · simp [hffb, setRetryFlag, abd_iterate_bitflip, zio_inject_bitflip_cb,
          habd]
      · have hffb2 : h.zi_record.zi_failfast = true := by
          revert hffb; cases h.zi_record.zi_failfast <;> simp
        simp [hffb2, setRetryFlag, abd_iterate_bitflip, zio_inject_bitflip_cb,
          habd]
    · intro jj hjj
      by_cases hj : jj = bitDraw % 8
      · subst hj
        simp [Nat.testBit_xor, Nat.one_shiftLeft, Nat.testBit_two_pow]
      · simp [Nat.testBit_xor, Nat.one_shiftLeft, Nat.testBit_two_pow,
          Ne.symm hj, hj]

/-- Witness for `device_injection_eilseq_spec`: the S3 scenario — a read
through vdev guid 3 with an `EILSEQ` record: the call returns 0 and one bit
of the first buffer segment is flipped. -/
theorem device_injection_eilseq_spec_witness :
    ∃ b j, b < ([0, 0, 0] : List Nat).length ∧ j < 8 ∧
      zio_handle_device_injection_impl vdC9 (some zC9) EILSEQ INT_MAX
          (hC9 :: []) (fun _ => 0) 1 3 =
        ⟨0, bumpInject (bumpMatch hC9) :: [],
          some { zC9 with
            retryFlag :=
              if hC9.zi_record.zi_failfast = false then true else zC9.retryFlag,
            abd := ([0, 0, 0] : List Nat).set b
              (([0, 0, 0] : List Nat).getD b 0 ^^^ (1 <<< j)) :: [[5, 5]] },
          if EILSEQ = ENXIO then { vdC9 with vs_aux := VDEV_AUX_OPEN_FAILED }
          else vdC9⟩ ∧
      (∀ jj, jj < 8 →
        ((([0, 0, 0] : List Nat).getD b 0 ^^^ (1 <<< j)).testBit jj ≠
            (([0, 0, 0] : List Nat).getD b 0).testBit jj ↔ jj = j)) :=
  (device_injection_eilseq_spec vdC9 (some zC9) EILSEQ INT_MAX hC9 []
      (fun _ => 0) 1 3 rfl rfl rfl (Or.inl rfl) (by decide) (by decide)).2
    zC9 [0, 0, 0] [[5, 5]] rfl (by decide) (Or.inr (Or.inr (by decide))) rfl
    (by decide)



theorem pickMin_eq_merge2 (b : Option (Nat × Nat)) (p : Nat × Nat) :
    pickMin b p = merge2 b (some p) := by
  cases b <;> rfl

theorem selectMin_cons (p : Nat × Nat) (l : List (Nat × Nat)) :
    selectMin (p :: l) = merge2 (some p) (selectMin l) := by
  cases h : selectMin l with
  | none =>
    conv_lhs => unfold selectMin
    rw [h]
    rfl
  | some q =>
    conv_lhs => unfold selectMin
    rw [h]
    rfl

theorem merge2_assoc (a b c : Option (Nat × Nat)) :
    merge2 (merge2 a b) c = merge2 a (merge2 b c) := by
  cases a with
  | none => rfl
  | some p =>
    cases b with
    | none => cases c <;> rfl
    | some q =>
      cases c with
      | none => simp [merge2]; split_ifs <;> rfl
      | some r =>
        by_cases h1 : q.2 < p.2 <;> by_cases h2 : r.2 < q.2 <;>
          by_cases h3 : r.2 < p.2 <;>
          first
            | (exfalso; omega)
            | simp [merge2, h1, h2, h3]

theorem foldl_pickMin_eq (l : List (Nat × Nat)) :
    ∀ b, List.foldl pickMin b l = merge2 b (selectMin l) := by
  induction l with
  | nil => intro b; cases b <;> rfl
  | cons p t ih =>
    intro b
    rw [List.foldl_cons, ih, pickMin_eq_merge2, merge2_assoc, ← selectMin_cons]

theorem delay_scan_fst (guid ioType : Nat) (probe : Bool) (now : Nat)
    (draw : Nat → Nat) :
    ∀ (l : List InjectHandler) (i : Nat) (best : Option (Nat × Nat)),
    (delay_scan guid ioType probe now draw l i best).1 =
      l.map (bumpIfCandidate guid ioType probe) := by
  intro l
  induction l with
  | nil => intro i best; rfl
  | cons h t ih =>
    intro i best
    by_cases hc : delayCandidate guid ioType probe h = true
    · by_cases hf : freq_triggered h.zi_record.zi_freq (draw i) = true
      · simp [delay_scan, bumpIfCandidate, hc, hf, ih]
      · simp [delay_scan, bumpIfCandidate, hc, hf, ih]
    · simp [delay_scan, bumpIfCandidate, hc, ih]

theorem delay_scan_snd (guid ioType : Nat) (probe : Bool) (now : Nat)
    (draw : Nat → Nat) :
    ∀ (l : List InjectHandler) (i : Nat) (best : Option (Nat × Nat)),
    (delay_scan guid ioType probe now draw l i best).2 =
      List.foldl pickMin best (firingList guid ioType probe now draw i l) := by
  intro l
  induction l with
  | nil => intro i best; rfl
  | cons h t ih =>
    intro i best
    by_cases hc : delayCandidate guid ioType probe h = true
    · by_cases hf : freq_triggered h.zi_record.zi_freq (draw i) = true
      · simp [delay_scan, firingList, hc, hf, ih, List.foldl_cons]
      · simp [delay_scan, firingList, hc, hf, ih]
    · simp [delay_scan, firingList, hc, ih]


theorem firingList_sound (guid ioType : Nat) (probe : Bool) (now : Nat)
    (draw : Nat → Nat) :
    ∀ (l : List InjectHandler) (i0 : Nat) (q : Nat × Nat),
    q ∈ firingList guid ioType probe now draw i0 l →
      i0 ≤ q.1 ∧ q.1 - i0 < l.length ∧
      delayCandidate guid ioType probe (l.getD (q.1 - i0) emptyHandler) = true ∧
      freq_triggered (l.getD (q.1 - i0) emptyHandler).zi_record.zi_freq
        (draw q.1) = true ∧
      q.2 = laneTarget now (l.getD (q.1 - i0) emptyHandler) := by
  intro l
  induction l with
  | nil => intro i0 q hq; simp [firingList] at hq
  | cons h t ih =>
    intro i0 q hq
    by_cases hcf : delayCandidate guid ioType probe h = true ∧
        freq_triggered h.zi_record.zi_freq (draw i0) = true
    · rw [firingList, if_pos hcf] at hq
      rcases List.mem_cons.mp hq with hq1 | hq1
      · subst hq1
        simpa using ⟨hcf.1, hcf.2⟩
      · obtain ⟨hle, hlt, hc2, hf2, hb⟩ := ih (i0 + 1) q hq1
        have hidx : q.1 - i0 = (q.1 - (i0 + 1)) + 1 := by omega
        rw [hidx]
        exact ⟨by omega, by simpa using (by omega : q.1 - (i0+1) + 1 < t.length + 1),
          hc2, hf2, hb⟩
    · rw [firingList, if_neg hcf] at hq
      obtain ⟨hle, hlt, hc2, hf2, hb⟩ := ih (i0 + 1) q hq
      have hidx : q.1 - i0 = (q.1 - (i0 + 1)) + 1 := by omega
      rw [hidx]
      exact ⟨by omega, by simpa using (by omega : q.1 - (i0+1) + 1 < t.length + 1),
        hc2, hf2, hb⟩

theorem firingList_complete (guid ioType : Nat) (probe : Bool) (now : Nat)
    (draw : Nat → Nat) :
    ∀ (l : List InjectHandler) (i0 m : Nat), m < l.length →
    delayCandidate guid ioType probe (l.getD m emptyHandler) = true →
    freq_triggered (l.getD m emptyHandler).zi_record.zi_freq (draw (i0 + m)) =
      true →
    (i0 + m, laneTarget now (l.getD m emptyHandler)) ∈
      firingList guid ioType probe now draw i0 l := by
  intro l
  induction l with
  | nil => intro i0 m hm; simp at hm
  | cons h t ih =>
    intro i0 m hm hc hf
    cases m with
    | zero =>
      have hcf : delayCandidate guid ioType probe h = true ∧
          freq_triggered h.zi_record.zi_freq (draw i0) = true := by
        constructor
        · simpa using hc
        · simpa using hf
      rw [firingList, if_pos hcf]
      simp
    | succ m =>
      have harith : i0 + (m + 1) = (i0 + 1) + m := by omega
      rw [harith] at hf
      have hmem := ih (i0 + 1) m (by simpa using hm) (by simpa using hc)
        (by simpa using hf)
      rw [harith]
      by_cases hcf : delayCandidate guid ioType probe h = true ∧
          freq_triggered h.zi_record.zi_freq (draw i0) = true
      · rw [firingList, if_pos hcf]
        exact List.mem_cons_of_mem _ hmem
      · rw [firingList, if_neg hcf]
        exact hmem


theorem firingList_lb (guid ioType : Nat) (probe : Bool) (now : Nat)
    (draw : Nat → Nat) (l : List InjectHandler) (i0 : Nat) (q : Nat × Nat)
    (hq : q ∈ firingList guid ioType probe now draw i0 l) : i0 ≤ q.1 :=
  (firingList_sound guid ioType probe now draw l i0 q hq).1

theorem firingList_pairwise (guid ioType : Nat) (probe : Bool) (now : Nat)
    (draw : Nat → Nat) :
    ∀ (l : List InjectHandler) (i0 : Nat),
    (firingList guid ioType probe now draw i0 l).Pairwise
      (fun a b => a.1 < b.1) := by
  intro l
  induction l with
  | nil => intro i0; simp [firingList]
  | cons h t ih =>
    intro i0
    by_cases hcf : delayCandidate guid ioType probe h = true ∧
        freq_triggered h.zi_record.zi_freq (draw i0) = true
    · rw [firingList, if_pos hcf]
      refine List.Pairwise.cons ?_ (ih (i0 + 1))
      intro q hq
      have := firingList_lb guid ioType probe now draw t (i0 + 1) q hq
      simpa using by omega
    · rw [firingList, if_neg hcf]
      exact ih (i0 + 1)

theorem selectMin_eq_none (l : List (Nat × Nat)) (h : selectMin l = none) :
    l = [] := by
  cases l with
  | nil => rfl
  | cons p t =>
    rw [selectMin_cons] at h
    cases ht : selectMin t <;> rw [ht] at h <;> simp [merge2] at h
    split at h <;> simp at h

theorem selectMin_mem :
    ∀ (l : List (Nat × Nat)) (q : Nat × Nat), selectMin l = some q → q ∈ l := by
  intro l
  induction l with
  | nil => intro q hq; simp [selectMin] at hq
  | cons p t ih =>
    intro q hq
    rw [selectMin_cons] at hq
    cases ht : selectMin t with
    | none =>
      rw [ht] at hq
      simp [merge2] at hq
      simp [hq]
    | some r =>
      rw [ht] at hq
      simp only [merge2] at hq
      split at hq
      · have := ih r ht
        simp only [Option.some.injEq] at hq
        subst hq
        exact List.mem_cons_of_mem _ this
      · simp only [Option.some.injEq] at hq
        subst hq
        exact List.mem_cons_self _ _

theorem selectMin_le :
    ∀ (l : List (Nat × Nat)) (q : Nat × Nat), selectMin l = some q →
      ∀ r ∈ l, q.2 ≤ r.2 := by
  intro l
  induction l with
  | nil => intro q hq; simp [selectMin] at hq
  | cons p t ih =>
    intro q hq r hr
    rw [selectMin_cons] at hq
    cases ht : selectMin t with
    | none =>
      have hte := selectMin_eq_none t ht
      subst hte
      rw [ht] at hq
      simp [merge2] at hq
      simp at hr
      subst hq
      subst hr
      exact le_refl _
    | some s =>
      rw [ht] at hq
      simp only [merge2] at hq
      rcases List.mem_cons.mp hr with hr1 | hr1
      · subst hr1
        split at hq <;> simp only [Option.some.injEq] at hq <;> subst hq
        · omega
        · exact le_refl _
      · have hs := ih s ht r hr1
        split at hq <;> simp only [Option.some.injEq] at hq <;> subst hq
        · exact hs
        · rename_i hlt
          omega

theorem selectMin_first :
    ∀ (l : List (Nat × Nat)), l.Pairwise (fun a b => a.1 < b.1) →
    ∀ (q : Nat × Nat), selectMin l = some q →
    ∀ r ∈ l, r.1 < q.1 → q.2 < r.2 := by
  intro l
  induction l with
  | nil => intro _ q hq; simp [selectMin] at hq
  | cons p t ih =>
    intro hpw q hq r hr hlt
    obtain ⟨hp, hpt⟩ := List.pairwise_cons.mp hpw
    rw [selectMin_cons] at hq
    cases ht : selectMin t with
    | none =>
      have hte := selectMin_eq_none t ht
      subst hte
      rw [ht] at hq
      simp [merge2] at hq
      simp at hr
      subst hq
      subst hr
      omega
    | some s =>
      rw [ht] at hq
      simp only [merge2] at hq
      have hsmem := selectMin_mem t s ht
      rcases List.mem_cons.mp hr with hr1 | hr1
      · subst hr1
        split at hq <;> simp only [Option.some.injEq] at hq <;> subst hq
        · rename_i h2
          exact h2
        · omega
      · split at hq <;> simp only [Option.some.injEq] at hq <;> subst hq
        · exact ih hpt s ht r hr1 hlt
        · have := hp r hr1
          omega


theorem getD_rep_append (j K T : Nat) (h : j < K) :
    (List.replicate j T ++ List.replicate (K - j) (0 : Nat)).getD j 0 = 0 := by
  have h2 : K - j = (K - j - 1) + 1 := by omega
  rw [h2, List.replicate_succ]
  rw [List.getD_eq_getElem?_getD, List.getElem?_append_right (by simp)]
  simp

theorem set_rep_append (j K T : Nat) (h : j < K) :
    (List.replicate j T ++ List.replicate (K - j) (0 : Nat)).set j T =
      List.replicate (j + 1) T ++ List.replicate (K - j - 1) 0 := by
  have h2 : K - j = (K - j - 1) + 1 := by omega
  rw [h2, List.replicate_succ, List.set_append]
  rw [if_neg (by simp)]
  simp [List.replicate_succ' ]

theorem scenario_candidate (g K T j : Nat) :
    delayCandidate g ZIO_TYPE_READ false (scenarioHandler g K T j) = true := by
  simp [delayCandidate, scenarioHandler, zio_match_iotype, emptyRecord,
    ZINJECT_IOTYPES, ZINJECT_IOTYPE_ALL, ZINJECT_IOTYPE_PROBE, ZIO_TYPE_READ]

theorem scenario_step (g K T : Nat) (draw : Nat → Nat) (j : Nat) (hj : j < K) :
    zio_handle_io_delay g ZIO_TYPE_READ false 0 draw (scenarioState g K T j) =
      (T, scenarioState g K T (j + 1)) := by
  have hfreq : freq_triggered (scenarioHandler g K T j).zi_record.zi_freq
      (draw 0) = true := by
    simp [scenarioHandler, emptyRecord, freq_triggered]
  have hlane : (scenarioHandler g K T j).zi_lanes.getD
      (scenarioHandler g K T j).zi_next_lane 0 = 0 := by
    show (List.replicate j T ++ List.replicate (K - j) 0).getD (j % K) 0 = 0
    rw [Nat.mod_eq_of_lt hj]
    exact getD_rep_append j K T hj
  have htarget : laneTarget 0 (scenarioHandler g K T j) = T := by
    rw [laneTarget, hlane]
    show max (T + 0) (T + 0) = T
    omega
  have hscan : delay_scan g ZIO_TYPE_READ false 0 draw
      [scenarioHandler g K T j] 0 none =
      ([bumpMatch (scenarioHandler g K T j)], some (0, T)) := by
    unfold delay_scan
    rw [if_pos (scenario_candidate g K T j), if_pos hfreq]
    simp [delay_scan, pickMin, htarget]
  have happly : applyDelay T (bumpMatch (scenarioHandler g K T j)) =
      scenarioHandler g K T (j + 1) := by
    unfold applyDelay bumpMatch scenarioHandler
    simp only [emptyRecord]
    rw [Nat.mod_eq_of_lt hj]
    simp [set_rep_append j K T hj]
    omega
  unfold zio_handle_io_delay
  rw [if_neg (by simp [scenarioState])]
  simp only [scenarioState]
  rw [hscan]
  simp only [modifyIdx, happly]

theorem scenario_iterate (g K T : Nat) (draw : Nat → Nat) :
    ∀ j, j ≤ K →
    (ioDelayStep g ZIO_TYPE_READ false 0 draw)^[j] (scenarioState g K T 0) =
      scenarioState g K T j := by
  intro j
  induction j with
  | zero => intro _; rfl
  | succ j ih =>
    intro hj
    rw [Function.iterate_succ_apply', ih (by omega)]
    unfold ioDelayStep
    rw [scenario_step g K T draw j (by omega)]

theorem scenario_last (g K T : Nat) (draw : Nat → Nat) (hK : 0 < K) :
    (zio_handle_io_delay g ZIO_TYPE_READ false 0 draw
      (scenarioState g K T K)).1 = 2 * T := by
  obtain ⟨K1, rfl⟩ : ∃ K1, K = K1 + 1 := ⟨K - 1, by omega⟩
  have hfreq : freq_triggered
      (scenarioHandler g (K1 + 1) T (K1 + 1)).zi_record.zi_freq (draw 0) =
      true := by
    simp [scenarioHandler, emptyRecord, freq_triggered]
  have hlane : (scenarioHandler g (K1 + 1) T (K1 + 1)).zi_lanes.getD
      (scenarioHandler g (K1 + 1) T (K1 + 1)).zi_next_lane 0 = T := by
    show (List.replicate (K1 + 1) T ++
      List.replicate ((K1 + 1) - (K1 + 1)) 0).getD ((K1 + 1) % (K1 + 1)) 0 = T
    rw [Nat.mod_self]
    simp [List.replicate_succ]
  have htarget : laneTarget 0 (scenarioHandler g (K1 + 1) T (K1 + 1)) =
      T + T := by
    rw [laneTarget, hlane]
    show max (T + 0) (T + T) = T + T
    omega
  have hscan : delay_scan g ZIO_TYPE_READ false 0 draw
      [scenarioHandler g (K1 + 1) T (K1 + 1)] 0 none =
      ([bumpMatch (scenarioHandler g (K1 + 1) T (K1 + 1))],
        some (0, T + T)) := by
    unfold delay_scan
    rw [if_pos (scenario_candidate g (K1 + 1) T (K1 + 1)), if_pos hfreq]
    simp [delay_scan, pickMin, htarget]
  unfold zio_handle_io_delay
  rw [if_neg (by simp [scenarioState])]
  simp only [scenarioState]
  rw [hscan]
  show T + T = 2 * T
  omega


theorem delay_scan_pair (guid ioType : Nat) (probe : Bool) (now : Nat)
    (draw : Nat → Nat) (hs : List InjectHandler) :
    delay_scan guid ioType probe now draw hs 0 none =
      (hs.map (bumpIfCandidate guid ioType probe),
        selectMin (firingList guid ioType probe now draw 0 hs)) := by
  have h1 := delay_scan_fst guid ioType probe now draw hs 0 none
  have h2 := delay_scan_snd guid ioType probe now draw hs 0 none
  rw [foldl_pickMin_eq] at h2
  exact Prod.ext h1 (by simpa [merge2] using h2)

/-- **C2**: when at least one registered delay-io handler matches the I/O
and passes the frequency gate, `zio_handle_io_delay` returns the minimum
over all firing handlers of `max(now + timer, lanes[next_lane] + timer)`
(ties broken in favour of the handler first in list order: every earlier
firing handler has a strictly larger target); exactly the selected handler
gets its lane overwritten with the returned target, its cursor advanced and
`zi_inject_count` bumped, while every other handler at most gets the
candidate `zi_match_count` bump.  In particular (S4), with `nlanes = K` and
`timer = T`, `K` I/Os issued at time 0 all receive target `T` and the
`(K+1)`-th receives `2T`. -/
theorem zio_handle_io_delay_min_selection :
    (∀ (guid ioType : Nat) (probe : Bool) (now : Nat) (draw : Nat → Nat)
        (st : InjectState),
      st.inject_delay_count ≠ 0 →
      (∃ i, firesAt guid ioType probe draw st.handlers i) →
      ∃ k, firesAt guid ioType probe draw st.handlers k ∧
        (zio_handle_io_delay guid ioType probe now draw st).1 =
          laneTarget now (st.handlers.getD k emptyHandler) ∧
        (∀ j, firesAt guid ioType probe draw st.handlers j →
          (zio_handle_io_delay guid ioType probe now draw st).1 ≤
            laneTarget now (st.handlers.getD j emptyHandler)) ∧
        (∀ j, j < k → firesAt guid ioType probe draw st.handlers j →
          (zio_handle_io_delay guid ioType probe now draw st).1 <
            laneTarget now (st.handlers.getD j emptyHandler)) ∧
        (zio_handle_io_delay guid ioType probe now draw st).2 =
          { st with
            handlers :=
              modifyIdx
                (applyDelay
                  (zio_handle_io_delay guid ioType probe now draw st).1)
                k (st.handlers.map (bumpIfCandidate guid ioType probe)) }) ∧
    (∀ (g K T : Nat) (draw : Nat → Nat), 0 < K →
      (∀ j, j < K →
        (zio_handle_io_delay g ZIO_TYPE_READ false 0 draw
          ((ioDelayStep g ZIO_TYPE_READ false 0 draw)^[j]
            (scenarioState g K T 0))).1 = T) ∧
      (zio_handle_io_delay g ZIO_TYPE_READ false 0 draw
        ((ioDelayStep g ZIO_TYPE_READ false 0 draw)^[K]
          (scenarioState g K T 0))).1 = 2 * T) := by
  constructor
  · intro guid ioType probe now draw st hdc hex
    have hscanpair := delay_scan_pair guid ioType probe now draw st.handlers
    obtain ⟨i, hilen, hic, hif⟩ := hex
    have hmem0 : (i, laneTarget now (st.handlers.getD i emptyHandler)) ∈
        firingList guid ioType probe now draw 0 st.handlers := by
      have := firingList_complete guid ioType probe now draw st.handlers 0 i
        hilen hic (by simpa using hif)
      simpa using this
    cases hsel : selectMin (firingList guid ioType probe now draw 0 st.handlers)
      with
    | none =>
      exfalso
      rw [selectMin_eq_none _ hsel] at hmem0
      simp at hmem0
    | some q =>
      obtain ⟨a, b⟩ := q
      have hqmem := selectMin_mem _ _ hsel
      obtain ⟨-, halen, hac, haf, hb⟩ :=
        firingList_sound guid ioType probe now draw st.handlers 0 (a, b) hqmem
      simp only [Nat.sub_zero] at halen hac haf hb
      have hres : zio_handle_io_delay guid ioType probe now draw st =
          (b, { st with
            handlers :=
              modifyIdx (applyDelay b) a
                (st.handlers.map (bumpIfCandidate guid ioType probe)) }) := by
        unfold zio_handle_io_delay
        rw [if_neg hdc, hscanpair, hsel]
      refine ⟨a, ⟨halen, hac, haf⟩, ?_, ?_, ?_, ?_⟩
      · rw [hres]; exact hb
      · intro j hj
        obtain ⟨hjlen, hjc, hjf⟩ := hj
        have hjm : (j, laneTarget now (st.handlers.getD j emptyHandler)) ∈
            firingList guid ioType probe now draw 0 st.handlers := by
          have := firingList_complete guid ioType probe now draw st.handlers 0 j
            hjlen hjc (by simpa using hjf)
          simpa using this
        have hle := selectMin_le _ _ hsel _ hjm
        rw [hres]
        simpa using hle
      · intro j hjlt hj
        obtain ⟨hjlen, hjc, hjf⟩ := hj
        have hjm : (j, laneTarget now (st.handlers.getD j emptyHandler)) ∈
            firingList guid ioType probe now draw 0 st.handlers := by
          have := firingList_complete guid ioType probe now draw st.handlers 0 j
            hjlen hjc (by simpa using hjf)
          simpa using this
        have hlt := selectMin_first _
          (firingList_pairwise guid ioType probe now draw st.handlers 0) _ hsel
          _ hjm (by simpa using hjlt)
        rw [hres]
        simpa using hlt
      · rw [hres]
  · intro g K T draw hK
    constructor
    · intro j hj
      rw [scenario_iterate g K T draw j (by omega),
        scenario_step g K T draw j hj]
    · rw [scenario_iterate g K T draw K (le_refl K)]
      exact scenario_last g K T draw hK


theorem bumpIfCandidate_lanes (guid ioType : Nat) (probe : Bool)
    (h : InjectHandler) :
    (bumpIfCandidate guid ioType probe h).zi_lanes = h.zi_lanes := by
  unfold bumpIfCandidate bumpMatch
  split <;> rfl

theorem bumpIfCandidate_next (guid ioType : Nat) (probe : Bool)
    (h : InjectHandler) :
    (bumpIfCandidate guid ioType probe h).zi_next_lane = h.zi_next_lane := by
  unfold bumpIfCandidate bumpMatch
  split <;> rfl

theorem getD_ge {α : Type} (l : List α) (j : Nat) (d : α)
    (hj : l.length ≤ j) : l.getD j d = d := by
  rw [List.getD_eq_getElem?_getD, List.getElem?_eq_none hj]
  rfl

theorem getD_map_lt (f : InjectHandler → InjectHandler)
    (l : List InjectHandler) (j : Nat) (hj : j < l.length) :
    (l.map f).getD j emptyHandler = f (l.getD j emptyHandler) := by
  rw [List.getD_eq_getElem?_getD, List.getD_eq_getElem?_getD, List.getElem?_map,
    List.getElem?_eq_getElem hj]
  rfl

theorem modifyIdx_getD_ne {α : Type} (f : α → α) (d : α) :
    ∀ (l : List α) (i j : Nat), i ≠ j →
    (modifyIdx f i l).getD j d = l.getD j d := by
  intro l
  induction l with
  | nil => intro i j _; cases i <;> rfl
  | cons a t ih =>
    intro i j hij
    cases i with
    | zero =>
      cases j with
      | zero => exact absurd rfl hij
      | succ j => rfl
    | succ i =>
      cases j with
      | zero => rfl
      | succ j => exact ih i j (by omega)

theorem modifyIdx_getD_self {α : Type} (f : α → α) (d : α) :
    ∀ (l : List α) (i : Nat), i < l.length →
    (modifyIdx f i l).getD i d = f (l.getD i d) := by
  intro l
  induction l with
  | nil => intro i hi; simp at hi
  | cons a t ih =>
    intro i hi
    cases i with
    | zero => rfl
    | succ i => exact ih i (by simpa using hi)

theorem getD_set_spec (l : List Nat) (i v k d : Nat) :
    (l.set i v).getD k d = if i = k ∧ i < l.length then v else l.getD k d := by
  by_cases h1 : i = k
  · subst h1
    by_cases h2 : i < l.length
    · rw [if_pos ⟨rfl, h2⟩, List.getD_eq_getElem?_getD,
        List.getElem?_set_self', List.getElem?_eq_getElem h2]
      rfl
    · rw [if_neg (by tauto), List.set_eq_of_length_le (by omega)]
  · rw [if_neg (by tauto), List.getD_eq_getElem?_getD,
      List.getElem?_set_ne h1, ← List.getD_eq_getElem?_getD]

/-- **C8**: for every handler and every lane slot, the stored lane value is
non-decreasing across a `zio_handle_io_delay` call, and whenever a slot
changes its new value is `max(timer + now, timer + previous)`, which is at
least the previous value. -/
theorem zio_handle_io_delay_lanes_monotone (guid ioType : Nat) (probe : Bool)
    (now : Nat) (draw : Nat → Nat) (st : InjectState) (j k : Nat) :
    (st.handlers.getD j emptyHandler).zi_lanes.getD k 0 ≤
      ((zio_handle_io_delay guid ioType probe now draw st).2.handlers.getD j
        emptyHandler).zi_lanes.getD k 0 ∧
    (((zio_handle_io_delay guid ioType probe now draw st).2.handlers.getD j
        emptyHandler).zi_lanes.getD k 0 ≠
        (st.handlers.getD j emptyHandler).zi_lanes.getD k 0 →
      ((zio_handle_io_delay guid ioType probe now draw st).2.handlers.getD j
        emptyHandler).zi_lanes.getD k 0 =
        max ((st.handlers.getD j emptyHandler).zi_record.zi_timer + now)
          ((st.handlers.getD j emptyHandler).zi_record.zi_timer +
            (st.handlers.getD j emptyHandler).zi_lanes.getD k 0)) := by
  by_cases hdc : st.inject_delay_count = 0
  · have hres : zio_handle_io_delay guid ioType probe now draw st = (0, st) := by
      unfold zio_handle_io_delay
      rw [if_pos hdc]
    rw [hres]
    exact ⟨le_refl _, fun hne => absurd rfl hne⟩
  · cases hsel : selectMin (firingList guid ioType probe now draw 0 st.handlers)
      with
    | none =>
      have hres : zio_handle_io_delay guid ioType probe now draw st =
          (0, { st with handlers :=
            st.handlers.map (bumpIfCandidate guid ioType probe) }) := by
        unfold zio_handle_io_delay
        rw [if_neg hdc, delay_scan_pair, hsel]
      rw [hres]
      simp only
      by_cases hj : j < st.handlers.length
      · rw [getD_map_lt _ _ _ hj, bumpIfCandidate_lanes]
        exact ⟨le_refl _, fun hne => absurd rfl hne⟩
      · rw [getD_ge (st.handlers.map (bumpIfCandidate guid ioType probe)) j
            emptyHandler (by simpa using hj),
          getD_ge st.handlers j emptyHandler (by omega)]
        exact ⟨le_refl _, fun hne => absurd rfl hne⟩
    | some q =>
      obtain ⟨a, b⟩ := q
      have hqmem := selectMin_mem _ _ hsel
      obtain ⟨-, halen, -, -, hb⟩ :=
        firingList_sound guid ioType probe now draw st.handlers 0 (a, b) hqmem
      simp only [Nat.sub_zero] at halen hb
      have hres : zio_handle_io_delay guid ioType probe now draw st =
          (b, { st with
            handlers :=
              modifyIdx (applyDelay b) a
                (st.handlers.map (bumpIfCandidate guid ioType probe)) }) := by
        unfold zio_handle_io_delay
        rw [if_neg hdc, delay_scan_pair, hsel]
      rw [hres]
      simp only
      by_cases hja : j = a
      · subst hja
        rw [modifyIdx_getD_self _ _ _ _ (by simpa using halen),
          getD_map_lt _ _ _ halen]
        simp only [applyDelay]
        rw [bumpIfCandidate_lanes, bumpIfCandidate_next]
        rw [getD_set_spec]
        by_cases hcase : (st.handlers.getD j emptyHandler).zi_next_lane = k ∧
            (st.handlers.getD j emptyHandler).zi_next_lane <
              (st.handlers.getD j emptyHandler).zi_lanes.length
        · rw [if_pos hcase]
          rw [laneTarget] at hb
          rw [← hcase.1]
          constructor
          · have h1 := Nat.le_max_right
              ((st.handlers.getD j emptyHandler).zi_record.zi_timer + now)
              ((st.handlers.getD j emptyHandler).zi_record.zi_timer +
                (st.handlers.getD j emptyHandler).zi_lanes.getD
                  (st.handlers.getD j emptyHandler).zi_next_lane 0)
            omega
          · intro _
            exact hb
        · rw [if_neg hcase]
          exact ⟨le_refl _, fun hne => absurd rfl hne⟩
      · rw [modifyIdx_getD_ne _ _ _ _ _ (fun hc => hja hc.symm)]
        by_cases hj : j < st.handlers.length
        · rw [getD_map_lt _ _ _ hj, bumpIfCandidate_lanes]
          exact ⟨le_refl _, fun hne => absurd rfl hne⟩
        · rw [getD_ge (st.handlers.map (bumpIfCandidate guid ioType probe)) j
            emptyHandler (by simpa using hj),
            getD_ge st.handlers j emptyHandler (by omega)]
          exact ⟨le_refl _, fun hne => absurd rfl hne⟩

/-- Witness for `zio_handle_io_delay_min_selection`: the S4 scenario with
`guid = 7`, `K = 2`, `T = 10`: the first call returns 10 and the third
returns 20. -/
theorem zio_handle_io_delay_min_selection_witness :
    (zio_handle_io_delay 7 ZIO_TYPE_READ false 0 (fun _ => 0)
      ((ioDelayStep 7 ZIO_TYPE_READ false 0 (fun _ => 0))^[0]
        (scenarioState 7 2 10 0))).1 = 10 ∧
    (zio_handle_io_delay 7 ZIO_TYPE_READ false 0 (fun _ => 0)
      ((ioDelayStep 7 ZIO_TYPE_READ false 0 (fun _ => 0))^[2]
        (scenarioState 7 2 10 0))).1 = 2 * 10 :=
  ⟨(zio_handle_io_delay_min_selection.2 7 2 10 (fun _ => 0) (by decide)).1 0
      (by decide),
    (zio_handle_io_delay_min_selection.2 7 2 10 (fun _ => 0) (by decide)).2⟩

/-- Witness for `zio_handle_io_delay_lanes_monotone`: in the S4 scenario the
first call raises lane 0 from 0 to 10 = max(10 + 0, 10 + 0). -/
theorem zio_handle_io_delay_lanes_monotone_witness :
    ((scenarioState 7 2 10 0).handlers.getD 0 emptyHandler).zi_lanes.getD 0 0 ≤
      ((zio_handle_io_delay 7 ZIO_TYPE_READ false 0 (fun _ => 0)
        (scenarioState 7 2 10 0)).2.handlers.getD 0
          emptyHandler).zi_lanes.getD 0 0 ∧
    ((zio_handle_io_delay 7 ZIO_TYPE_READ false 0 (fun _ => 0)
        (scenarioState 7 2 10 0)).2.handlers.getD 0
          emptyHandler).zi_lanes.getD 0 0 =
      max (((scenarioState 7 2 10 0).handlers.getD 0
            emptyHandler).zi_record.zi_timer + 0)
        (((scenarioState 7 2 10 0).handlers.getD 0
            emptyHandler).zi_record.zi_timer +
          ((scenarioState 7 2 10 0).handlers.getD 0
            emptyHandler).zi_lanes.getD 0 0) :=
  ⟨(zio_handle_io_delay_lanes_monotone 7 ZIO_TYPE_READ false 0 (fun _ => 0)
      (scenarioState 7 2 10 0) 0 0).1,
    (zio_handle_io_delay_lanes_monotone 7 ZIO_TYPE_READ false 0 (fun _ => 0)
      (scenarioState 7 2 10 0) 0 0).2 (by decide)⟩

end ZfsInject
